import Mathlib

/-!
Verification of the Live Bucket & Virtualized List Engine of the
OceanCRM WhatsApp extension.

The development shallowly embeds the relevant functions of the two main
source files:

* the MAIN-world script (buckets over live chat models): `isUnread`,
  `buildBuckets`, `refreshBuckets`, `onChatChanged`, `addToBucket`,
  `removeFromBucket`, `loadAllLeads`, `renderVisibleRows`,
  `onStageTabClick`, `rebuildChatList` (takeover part),
  `restoreNativeChatList`, `getRowHeight`, `slugify`;
* the content script: `normalizePhone`, `getStageForPhone`,
  `buildChatStageBuckets`, and its own `loadAllLeads`.

JavaScript objects whose fields are mutated in place by the host
(live Backbone chat models) are modelled as an identifier together
with a field record; in-place mutation of the shared reference is the
explicit `mutateChat` operation which rewrites the fields everywhere
the reference is stored (model list, id map, and every bucket).
JS objects used as dictionaries are modelled as `String → Option _`
(the key type carries Map/object lookup), JS `Map`s (which preserve
insertion order) as association lists.
-/

namespace OceanCRM

/-! ### Chat data model (live WPP Backbone chat models)

Fields of a chat model read by the engine.  `t` is the last-activity
timestamp (`chat.t || 0` in the source is modelled by making `t` total),
`msgs` the ordered message list (`chat.msgs.getModelsArray()`), and a
message only exposes `msg.id.fromMe`, the single field the engine reads.
Fields the engine never reads are omitted. -/

structure MsgId where
  fromMe : Bool
deriving DecidableEq

structure Msg where
  id : MsgId
deriving DecidableEq

structure ChatFields where
  archive : Bool
  unreadCount : Nat
  hasUnread : Bool
  isGroup : Bool
  t : Int
  pin : Nat
  msgs : List Msg
deriving DecidableEq

/-- A live chat model: a stable serialized id (`chat.id._serialized`)
plus the current mutable fields.  The engine stores references; field
mutation is modelled by `mutateChat` below. -/
structure Chat where
  id : String
  f : ChatFields
deriving DecidableEq

/-- `isUnread` (MAIN-world script):
`chat.unreadCount > 0 || chat.hasUnread === true`. -/
def isUnread (c : Chat) : Bool :=
  decide (0 < c.f.unreadCount) || c.f.hasUnread

/-- The needs-reply test inlined in `buildBuckets`, `refreshBuckets` and
`onChatChanged`: the message list is non-empty and its most recent
message was not sent by the local user (`!lastMsg.id.fromMe`). -/
def lastMsgNotFromMe (c : Chat) : Bool :=
  match c.f.msgs.getLast? with
  | some m => !m.id.fromMe
  | none => false

/-- Combined needs-reply predicate used in all three categorization
sites: `!chat.isGroup && isUnread(chat) && lastMsg not from me`. -/
def needsReply (c : Chat) : Bool :=
  !c.f.isGroup && isUnread c && lastMsgNotFromMe c

/-! ### Stage and lead records -/

/-- A CRM stage as consumed by the bucket code: its slug and whether it
is the default stage (`stages[s].is_default`).  Display fields are
omitted. -/
structure Stage where
  slug : String
  isDefault : Bool
deriving DecidableEq

/-- A lead record as stored in the MAIN-world `leads[chatId]` map by
`loadAllLeads`.  Only the fields the bucket engine reads are kept
(`stage_slug` drives stage-bucket placement); display-only fields
(email, potential, tags, …) are omitted. -/
structure Lead where
  stage : String
  stage_slug : String
  name : String
  phone : String
deriving DecidableEq

/-- `slugify` (MAIN-world script): lower-case, replace every maximal
run of non-alphanumeric characters by a single hyphen, trim leading and
trailing hyphens. -/
def slugChar (c : Char) : Bool :=
  (decide (97 ≤ c.toNat) && decide (c.toNat ≤ 122)) || c.isDigit

def collapseAux : Bool → List Char → List Char
  | _, [] => []
  | inRun, c :: cs =>
    if slugChar c then c :: collapseAux false cs
    else if inRun then collapseAux true cs
    else '-' :: collapseAux true cs

def collapseRuns (l : List Char) : List Char := collapseAux false l

def slugify (name : String) : String :=
  let low := (name.toList.map Char.toLower)
  let collapsed := collapseRuns low
  String.mk ((collapsed.dropWhile (· == '-')).reverse.dropWhile (· == '-') |>.reverse)

/-! ### Buckets

`buckets` is a JS object mapping slug strings to arrays of live chat
model references; modelled as `String → Option (List Chat)` (a key is
present iff the function returns `some`). -/

abbrev Buckets := String → Option (List Chat)

/-- The five built-in bucket slugs initialized by `buildBuckets`. -/
def builtinSlugs : List String :=
  ["all-chats", "unread-chats", "needs-reply", "groups", "pending-reminders"]

/-- The four built-in buckets `refreshBuckets` re-initializes
(`pending-reminders` is deliberately left untouched there). -/
def refreshedBuiltins : List String :=
  ["all-chats", "unread-chats", "needs-reply", "groups"]

/-- `buckets[slug] = l` -/
def bucketSet (b : Buckets) (slug : String) (l : List Chat) : Buckets :=
  fun s => if s = slug then some l else b s

/-- `if (buckets[slug] === undefined) buckets[slug] = []; buckets[slug].push(c)`.
At the built-in slugs the key always exists when this runs (they are
initialized first), so the `getD []` default coincides with the source
also there. -/
def bucketPush (b : Buckets) (slug : String) (c : Chat) : Buckets :=
  bucketSet b slug ((b slug).getD [] ++ [c])

/-- Step 1 of `buildBuckets`: a fresh object with the five built-in
buckets empty, plus one empty bucket per non-default stage. -/
def stagesInit (stages : List Stage) (b : Buckets) : Buckets :=
  stages.foldl (fun bb st => if st.isDefault then bb else bucketSet bb st.slug []) b

def initBuckets (stages : List Stage) : Buckets :=
  stagesInit stages (fun s => if s ∈ builtinSlugs then some [] else none)

/-- The categorization body of the per-chat loop shared by
`buildBuckets` (step 6) and `refreshBuckets`: skip archived chats, push
to `all-chats`, conditionally to `unread-chats` / `groups` /
`needs-reply`, then join `leads[chatId]` and push to the lead's
`stage_slug` bucket when the lead resolves and its slug is truthy. -/
def pushIf (cond : Bool) (b : Buckets) (slug : String) (c : Chat) : Buckets :=
  if cond then bucketPush b slug c else b

/-- The stage-join push: `var lead = leads[chatId]; if (lead && lead.stage_slug) { … push }`. -/
def stagePush (leads : String → Option Lead) (b : Buckets) (c : Chat) : Buckets :=
  match leads c.id with
  | some l => if l.stage_slug = "" then b else bucketPush b l.stage_slug c
  | none => b

def categorizeChat (leads : String → Option Lead) (b : Buckets) (c : Chat) : Buckets :=
  if c.f.archive then b
  else
    stagePush leads
      (pushIf (needsReply c)
        (pushIf c.f.isGroup
          (pushIf (isUnread c)
            (bucketPush b "all-chats" c) "unread-chats" c) "groups" c) "needs-reply" c) c

/-- Step 4 of `buildBuckets` / `refreshBuckets`: sort live chat models
by timestamp, newest first (`(a, b) => (b.t || 0) - (a.t || 0)`).
`Array.prototype.sort` is stable; a stable sort is modelled by
insertion sort, which produces the same list. -/
def sortChats (chats : List Chat) : List Chat :=
  chats.insertionSort (fun a b => b.f.t ≤ a.f.t)

/-- Step 5 of `buildBuckets`: `liveChatMap[id] = model` in list order
(later entries overwrite earlier ones). -/
def mkChatMap (chats : List Chat) : String → Option Chat :=
  chats.foldl (fun m c => fun s => if s = c.id then some c else m s) (fun _ => none)

/-- The MAIN-world module state touched by the bucket engine. -/
structure Engine where
  buckets : Buckets
  stages : List Stage
  leads : String → Option Lead
  liveChatModels : List Chat
  liveChatMap : String → Option Chat

/-- `buildBuckets()` (MAIN-world script).  The source reads `stages`,
`leads` from module globals and fetches the live chat models; both are
parameters here.  Steps: initialize the bucket object, sort the models,
build `liveChatMap`, categorize every model. -/
def buildBuckets (stages : List Stage) (leads : String → Option Lead)
    (chats : List Chat) : Engine :=
  let sorted := sortChats chats
  { buckets := sorted.foldl (categorizeChat leads) (initBuckets stages)
    stages := stages
    leads := leads
    liveChatModels := sorted
    liveChatMap := mkChatMap sorted }

/-- The re-initialization performed by `refreshBuckets`: the four
built-in buckets are reset to `[]`, every non-default stage bucket is
reset to `[]`, and every other key of the existing object (including
`pending-reminders` and any dynamically created stage bucket) keeps its
current contents. -/
def reinitBuckets (b : Buckets) (stages : List Stage) : Buckets :=
  stagesInit stages
    (bucketSet (bucketSet (bucketSet (bucketSet b "all-chats" [])
      "unread-chats" []) "needs-reply" []) "groups" [])

/-- `refreshBuckets()` (MAIN-world script): no-op on an empty model
list; otherwise re-sort the live models and re-run the categorization
loop over the re-initialized bucket object.  (The re-render trigger at
the end only touches the DOM.) -/
def refreshBuckets (e : Engine) : Engine :=
  if e.liveChatModels.isEmpty then e
  else
    let sorted := sortChats e.liveChatModels
    { e with
      liveChatModels := sorted
      buckets := sorted.foldl (categorizeChat e.leads) (reinitBuckets e.buckets e.stages) }

/-- `addToBucket(chatId, bucketSlug)`: no-op if the bucket key is
missing, the chat is not in `liveChatMap`, or the chat is archived;
otherwise `unshift` the live model unless an entry with the same
serialized id is already present. -/
def addToBucket (map : String → Option Chat) (b : Buckets)
    (chatId slug : String) : Buckets :=
  match b slug with
  | none => b
  | some arr =>
    match map chatId with
    | none => b
    | some chat =>
      if chat.f.archive then b
      else if arr.any (fun c => c.id == chatId) then b
      else bucketSet b slug (chat :: arr)

/-- `removeFromBucket(chat, bucketSlug)`: filter the chat's serialized
id out of one bucket, or out of every bucket when `bucketSlug` is null.
Only `chat.id._serialized` is read from the chat argument. -/
def removeFromBucket (b : Buckets) (chatId : String) : Option String → Buckets
  | some slug =>
    match b slug with
    | some arr => bucketSet b slug (arr.filter (fun c => c.id != chatId))
    | none => b
  | none => fun s => (b s).map (List.filter (fun c => c.id != chatId))

/-- `liveChatMap[chatId] = chat` — step 1 of `onChatChanged`. -/
def updateMap (e : Engine) (c : Chat) : String → Option Chat :=
  fun s => if s = c.id then some c else e.liveChatMap s

/-- Step 2 of `onChatChanged`, unread bucket: add when unread, remove
otherwise. -/
def repairUnread (map : String → Option Chat) (b : Buckets) (c : Chat) : Buckets :=
  if isUnread c then addToBucket map b c.id "unread-chats"
  else removeFromBucket b c.id (some "unread-chats")

/-- Step 2, groups bucket: add when a group; the source has no removal
branch here. -/
def repairGroups (map : String → Option Chat) (b : Buckets) (c : Chat) : Buckets :=
  if c.f.isGroup then addToBucket map b c.id "groups" else b

/-- Step 2, needs-reply bucket: add when the needs-reply predicate
holds, remove otherwise. -/
def repairNeedsReply (map : String → Option Chat) (b : Buckets) (c : Chat) : Buckets :=
  if needsReply c then addToBucket map b c.id "needs-reply"
  else removeFromBucket b c.id (some "needs-reply")

/-- `onChatChanged(chat)` (MAIN-world script), bucket-state part: record
the model in `liveChatMap`, then repair membership in `unread-chats`,
`groups` and `needs-reply` in order.  Stage buckets are deliberately not
touched ("CRM lead data doesn't change on WA events").  Steps 3–4 of
the source only re-render DOM rows and counts. -/
def onChatChanged (e : Engine) (c : Chat) : Engine :=
  let map := updateMap e c
  { e with
    liveChatMap := map
    buckets := repairNeedsReply map (repairGroups map (repairUnread map e.buckets c) c) c }

/-- In-place mutation of the fields of the live model with id `cid`:
because every store (model list, id map, bucket arrays) holds the same
reference, the new fields become visible everywhere at once. -/
def setFields (cid : String) (nf : ChatFields) (c : Chat) : Chat :=
  if c.id = cid then { c with f := nf } else c

def mutateChat (e : Engine) (cid : String) (nf : ChatFields) : Engine :=
  { buckets := fun s => (e.buckets s).map (List.map (setFields cid nf))
    stages := e.stages
    leads := e.leads
    liveChatModels := e.liveChatModels.map (setFields cid nf)
    liveChatMap := fun s => (e.liveChatMap s).map (setFields cid nf) }

/-! ### Bucket membership

`memBucket b slug cid` is "the bucket object `b` has key `slug` and its
array contains an entry whose serialized id is `cid`" — the notion of
membership all bucket claims are about. -/

def memBucket (b : Buckets) (slug cid : String) : Bool :=
  match b slug with
  | some arr => arr.any (fun c => c.id == cid)
  | none => false

/-- The categorization predicate: `categorizeChat` pushes chat `c` into
bucket `s` exactly when this holds (archived chats go nowhere; the
stage disjunct fires when the joined lead's truthy slug equals `s`). -/
def chatInSlugB (leads : String → Option Lead) (c : Chat) (s : String) : Bool :=
  !c.f.archive &&
    (s == "all-chats" ||
     (s == "unread-chats" && isUnread c) ||
     (s == "groups" && c.f.isGroup) ||
     (s == "needs-reply" && needsReply c) ||
     (match leads c.id with
      | some l => !(l.stage_slug == "") && l.stage_slug == s
      | none => false))

/-- The live WPP chat store is keyed by serialized id, so the model
list never contains two models with the same id. -/
def chatIdsNodup (chats : List Chat) : Prop := (chats.map Chat.id).Nodup

def nonDefaultSlugs (stages : List Stage) : List String :=
  (stages.filter (fun st => !st.isDefault)).map Stage.slug

/-- Sanity condition on CRM data: no lead's stage slug collides with
one of the five reserved built-in bucket slugs. -/
def LeadSlugsDisjoint (leads : String → Option Lead) : Prop :=
  ∀ cid l, leads cid = some l → l.stage_slug ∉ builtinSlugs

/-- Sanity condition on CRM data: every truthy lead stage slug belongs
to a non-default stage of the fetched stage list (these are exactly the
stage buckets `buildBuckets`/`refreshBuckets` re-initialize). -/
def LeadsCovered (stages : List Stage) (leads : String → Option Lead) : Prop :=
  ∀ cid l, leads cid = some l → l.stage_slug ≠ "" →
    l.stage_slug ∈ nonDefaultSlugs stages

lemma bool_eq_of_iff {a b : Bool} (h : a = true ↔ b = true) : a = b := by
  cases a <;> cases b <;> simp_all

lemma mem_bucketPush_iff (b : Buckets) (slug : String) (c : Chat) (s cid : String) :
    memBucket (bucketPush b slug c) s cid = true ↔
      memBucket b s cid = true ∨ (s = slug ∧ c.id = cid) := by
  unfold bucketPush bucketSet memBucket
  by_cases h : s = slug
  · subst h
    cases hb : b s <;> simp [hb, List.any_append]
  · simp [h]

lemma mem_pushIf_iff (cond : Bool) (b : Buckets) (slug : String) (c : Chat)
    (s cid : String) :
    memBucket (pushIf cond b slug c) s cid = true ↔
      memBucket b s cid = true ∨ (cond = true ∧ s = slug ∧ c.id = cid) := by
  cases cond <;> simp [pushIf, mem_bucketPush_iff, and_assoc]

lemma mem_stagePush_iff (leads : String → Option Lead) (b : Buckets) (c : Chat)
    (s cid : String) :
    memBucket (stagePush leads b c) s cid = true ↔
      memBucket b s cid = true ∨
        (∃ l, leads c.id = some l ∧ l.stage_slug ≠ "" ∧ l.stage_slug = s ∧ c.id = cid) := by
  cases hl : leads c.id with
  | none => simp [stagePush, hl]
  | some l =>
    simp only [stagePush, hl]
    by_cases hs : l.stage_slug = ""
    · rw [if_pos hs]
      simp only [Option.some.injEq]
      constructor
      · exact Or.inl
      · rintro (h | ⟨l1, he, h1, h2, h3⟩)
        · exact h
        · cases he
          exact absurd hs h1
    · rw [if_neg hs, mem_bucketPush_iff]
      simp only [Option.some.injEq]
      constructor
      · rintro (h | ⟨h1, h2⟩)
        · exact Or.inl h
        · exact Or.inr ⟨l, rfl, hs, h1.symm, h2⟩
      · rintro (h | ⟨l1, he, h1, h2, h3⟩)
        · exact Or.inl h
        · cases he
          exact Or.inr ⟨h2.symm, h3⟩

lemma mem_categorizeChat_iff (leads : String → Option Lead) (b : Buckets)
    (c : Chat) (s cid : String) :
    memBucket (categorizeChat leads b c) s cid = true ↔
      memBucket b s cid = true ∨ (c.id = cid ∧ chatInSlugB leads c s = true) := by
  by_cases ha : c.f.archive = true
  · simp [categorizeChat, ha, chatInSlugB]
  · have ha' : c.f.archive = false := by simpa using ha
    rw [categorizeChat, if_neg (by simp [ha']), mem_stagePush_iff, mem_pushIf_iff,
      mem_pushIf_iff, mem_pushIf_iff, mem_bucketPush_iff]
    simp only [chatInSlugB, ha', Bool.not_false, Bool.true_and, Bool.or_eq_true,
      Bool.and_eq_true, beq_iff_eq]
    cases hl : leads c.id with
    | none =>
      simp only [hl, reduceCtorEq, false_and, exists_false, or_false,
        Bool.false_eq_true, and_false]
      tauto
    | some l =>
      simp only [hl, Option.some.injEq, Bool.and_eq_true, Bool.not_eq_true',
        beq_eq_false_iff_ne, beq_iff_eq, ne_eq, exists_eq_left']
      tauto

lemma mem_foldl_categorize_iff (leads : String → Option Lead) (chats : List Chat)
    (b : Buckets) (s cid : String) :
    memBucket (chats.foldl (categorizeChat leads) b) s cid = true ↔
      memBucket b s cid = true ∨
        ∃ c ∈ chats, c.id = cid ∧ chatInSlugB leads c s = true := by
  induction chats generalizing b with
  | nil => simp
  | cons c rest ih =>
    rw [List.foldl_cons, ih, mem_categorizeChat_iff]
    constructor
    · rintro ((h | h) | ⟨d, hd, hid, h⟩)
      · exact Or.inl h
      · exact Or.inr ⟨c, List.mem_cons_self c rest, h.1, h.2⟩
      · exact Or.inr ⟨d, List.mem_cons_of_mem c hd, hid, h⟩
    · rintro (h | ⟨d, hd, hid, h⟩)
      · exact Or.inl (Or.inl h)
      · rcases List.mem_cons.mp hd with h1 | h1
        · exact Or.inl (Or.inr ⟨by rw [h1] at hid; exact hid, by rw [h1] at h; exact h⟩)
        · exact Or.inr ⟨d, h1, hid, h⟩

lemma nonDefaultSlugs_cons (t : Stage) (rest : List Stage) :
    nonDefaultSlugs (t :: rest) =
      if t.isDefault then nonDefaultSlugs rest else t.slug :: nonDefaultSlugs rest := by
  cases h : t.isDefault <;> simp [nonDefaultSlugs, List.filter_cons, h]

lemma stagesInit_apply (stages : List Stage) (b : Buckets) (s : String) :
    stagesInit stages b s = if s ∈ nonDefaultSlugs stages then some [] else b s := by
  induction stages generalizing b with
  | nil => simp [stagesInit, nonDefaultSlugs]
  | cons t rest ih =>
    cases hd : t.isDefault with
    | true =>
      have h1 : stagesInit (t :: rest) b = stagesInit rest b := by
        simp [stagesInit, hd]
      rw [h1, ih, nonDefaultSlugs_cons, hd]
      simp
    | false =>
      have h1 : stagesInit (t :: rest) b = stagesInit rest (bucketSet b t.slug []) := by
        simp [stagesInit, hd]
      rw [h1, ih, nonDefaultSlugs_cons, hd]
      by_cases hs : s ∈ nonDefaultSlugs rest
      · simp [hs]
      · by_cases he : s = t.slug <;> simp [hs, he, bucketSet]

lemma initBuckets_apply (stages : List Stage) (s : String) :
    initBuckets stages s =
      if s ∈ nonDefaultSlugs stages ∨ s ∈ builtinSlugs then some [] else none := by
  rw [initBuckets, stagesInit_apply]
  by_cases h1 : s ∈ nonDefaultSlugs stages <;> by_cases h2 : s ∈ builtinSlugs <;>
    simp [h1, h2]

lemma mem_initBuckets (stages : List Stage) (s cid : String) :
    memBucket (initBuckets stages) s cid = false := by
  rw [memBucket, initBuckets_apply]
  by_cases h : s ∈ nonDefaultSlugs stages ∨ s ∈ builtinSlugs <;> simp [h]

lemma sortChats_perm (chats : List Chat) : List.Perm (sortChats chats) chats :=
  List.perm_insertionSort _ chats

lemma mem_sortChats (chats : List Chat) (c : Chat) :
    c ∈ sortChats chats ↔ c ∈ chats :=
  (sortChats_perm chats).mem_iff

/-- Membership after a full rebuild is exactly the categorization
predicate, over the input chat list. -/
lemma mem_buildBuckets_iff (stages : List Stage) (leads : String → Option Lead)
    (chats : List Chat) (s cid : String) :
    memBucket (buildBuckets stages leads chats).buckets s cid = true ↔
      ∃ c ∈ chats, c.id = cid ∧ chatInSlugB leads c s = true := by
  show memBucket ((sortChats chats).foldl (categorizeChat leads) (initBuckets stages)) s cid = true ↔ _
  rw [mem_foldl_categorize_iff, mem_initBuckets]
  constructor
  · rintro (h | ⟨c, hc, h⟩)
    · exact absurd h (by simp)
    · exact ⟨c, (mem_sortChats chats c).mp hc, h⟩
  · rintro ⟨c, hc, h⟩
    exact Or.inr ⟨c, (mem_sortChats chats c).mpr hc, h⟩

/-- With distinct chat ids, the existential collapses to the single
chat with the queried id. -/
lemma mem_buildBuckets_of_mem (stages : List Stage) (leads : String → Option Lead)
    (chats : List Chat) (c : Chat) (hnd : chatIdsNodup chats) (hc : c ∈ chats)
    (s : String) :
    memBucket (buildBuckets stages leads chats).buckets s c.id = chatInSlugB leads c s := by
  apply bool_eq_of_iff
  rw [mem_buildBuckets_iff]
  constructor
  · rintro ⟨d, hd, hid, h⟩
    have hdc : d = c := List.inj_on_of_nodup_map hnd hd hc hid
    rwa [hdc] at h
  · intro h
    exact ⟨c, hc, rfl, h⟩

/-- Under `LeadSlugsDisjoint`, the stage-join disjunct of the
categorization predicate never fires at a built-in slug. -/
lemma chatInSlugB_builtin_eq (leads : String → Option Lead)
    (hdisj : LeadSlugsDisjoint leads) (c : Chat) (σ : String) (hσ : σ ∈ builtinSlugs) :
    (match leads c.id with
      | some l => !(l.stage_slug == "") && l.stage_slug == σ
      | none => false) = false := by
  cases hl : leads c.id with
  | none => rfl
  | some l =>
    by_cases he : l.stage_slug = σ
    · exact absurd hσ (he ▸ hdisj c.id l hl)
    · simp [he]

lemma chatInSlugB_all (leads : String → Option Lead) (c : Chat) :
    chatInSlugB leads c "all-chats" = !c.f.archive := by
  rw [chatInSlugB]
  cases hA : c.f.archive <;> simp

lemma chatInSlugB_unread (leads : String → Option Lead)
    (hdisj : LeadSlugsDisjoint leads) (c : Chat) :
    chatInSlugB leads c "unread-chats" = (!c.f.archive && isUnread c) := by
  rw [chatInSlugB, chatInSlugB_builtin_eq leads hdisj c _ (by decide)]
  cases hA : c.f.archive <;> cases hU : isUnread c <;>
    cases hG : c.f.isGroup <;> cases hR : needsReply c <;> rfl

lemma chatInSlugB_groups (leads : String → Option Lead)
    (hdisj : LeadSlugsDisjoint leads) (c : Chat) :
    chatInSlugB leads c "groups" = (!c.f.archive && c.f.isGroup) := by
  rw [chatInSlugB, chatInSlugB_builtin_eq leads hdisj c _ (by decide)]
  cases hA : c.f.archive <;> cases hU : isUnread c <;>
    cases hG : c.f.isGroup <;> cases hR : needsReply c <;> rfl

lemma chatInSlugB_needsReply (leads : String → Option Lead)
    (hdisj : LeadSlugsDisjoint leads) (c : Chat) :
    chatInSlugB leads c "needs-reply" = (!c.f.archive && needsReply c) := by
  rw [chatInSlugB, chatInSlugB_builtin_eq leads hdisj c _ (by decide)]
  cases hA : c.f.archive <;> cases hU : isUnread c <;>
    cases hG : c.f.isGroup <;> cases hR : needsReply c <;> rfl

lemma chatInSlugB_pending (leads : String → Option Lead)
    (hdisj : LeadSlugsDisjoint leads) (c : Chat) :
    chatInSlugB leads c "pending-reminders" = false := by
  rw [chatInSlugB, chatInSlugB_builtin_eq leads hdisj c _ (by decide)]
  cases hA : c.f.archive <;> cases hU : isUnread c <;>
    cases hG : c.f.isGroup <;> cases hR : needsReply c <;> rfl

lemma chatInSlugB_archived (leads : String → Option Lead) (c : Chat)
    (ha : c.f.archive = true) (s : String) :
    chatInSlugB leads c s = false := by
  simp [chatInSlugB, ha]

/-- At a non-built-in, truthy slug the categorization predicate is
exactly the lead join. -/
lemma chatInSlugB_stage_iff (leads : String → Option Lead) (c : Chat) (σ : String)
    (hσb : σ ∉ builtinSlugs) (hσe : σ ≠ "") :
    chatInSlugB leads c σ = true ↔
      c.f.archive = false ∧ ∃ l, leads c.id = some l ∧ l.stage_slug = σ := by
  have h1 : σ ≠ "all-chats" := by rintro rfl; exact hσb (by decide)
  have h2 : σ ≠ "unread-chats" := by rintro rfl; exact hσb (by decide)
  have h3 : σ ≠ "groups" := by rintro rfl; exact hσb (by decide)
  have h4 : σ ≠ "needs-reply" := by rintro rfl; exact hσb (by decide)
  rw [chatInSlugB]
  cases hl : leads c.id with
  | none =>
    simp [h1, h2, h3, h4]
  | some l =>
    simp only [Bool.and_eq_true, Bool.or_eq_true, beq_iff_eq, Bool.not_eq_true',
      Option.some.injEq, exists_eq_left', beq_eq_false_iff_ne, ne_eq]
    constructor
    · rintro ⟨ha, (((h | ⟨h, _⟩) | ⟨h, _⟩) | ⟨h, _⟩) | ⟨hne, he⟩⟩
      · exact absurd h h1
      · exact absurd h h2
      · exact absurd h h3
      · exact absurd h h4
      · exact ⟨ha, he⟩
    · rintro ⟨ha, he⟩
      refine ⟨ha, Or.inr ⟨?_, he⟩⟩
      intro h0
      exact hσe (he.symm.trans h0)

/-! ### Reactivity lemmas: reference mutation, incremental repair, refresh -/

lemma setFields_id (cid : String) (nf : ChatFields) (c : Chat) :
    (setFields cid nf c).id = c.id := by
  unfold setFields
  split <;> rfl

lemma setFields_self (cid : String) (f0 nf : ChatFields) :
    setFields cid nf ⟨cid, f0⟩ = ⟨cid, nf⟩ := by
  unfold setFields
  rw [if_pos rfl]

lemma setFields_other (cid : String) (nf : ChatFields) (c : Chat) (h : c.id ≠ cid) :
    setFields cid nf c = c := by
  unfold setFields
  rw [if_neg h]

/-- In-place field mutation never changes bucket membership: only the
fields of the stored references change, not which references a bucket
array holds. -/
lemma mem_mutateChat (e : Engine) (cid : String) (nf : ChatFields) (s d : String) :
    memBucket (mutateChat e cid nf).buckets s d = memBucket e.buckets s d := by
  show memBucket (fun s2 => (e.buckets s2).map (List.map (setFields cid nf))) s d = _
  unfold memBucket
  show (match (e.buckets s).map (List.map (setFields cid nf)) with
    | some arr => arr.any fun c => c.id == d
    | none => false) = _
  cases hb : e.buckets s with
  | none => rfl
  | some arr =>
    show (arr.map (setFields cid nf)).any (fun c => c.id == d) = arr.any (fun c => c.id == d)
    rw [List.any_map]
    apply bool_eq_of_iff
    simp only [List.any_eq_true, Function.comp_apply, setFields_id]

lemma mutateChat_models (e : Engine) (cid : String) (nf : ChatFields) :
    (mutateChat e cid nf).liveChatModels = e.liveChatModels.map (setFields cid nf) := rfl

lemma buildBuckets_models (stages : List Stage) (leads : String → Option Lead)
    (chats : List Chat) :
    (buildBuckets stages leads chats).liveChatModels = sortChats chats := rfl

lemma bucketPush_isSome (b : Buckets) (slug : String) (c : Chat) (s : String)
    (h : (b s).isSome) : ((bucketPush b slug c) s).isSome := by
  unfold bucketPush bucketSet
  by_cases he : s = slug <;> simp [he, h]

lemma pushIf_isSome (cond : Bool) (b : Buckets) (slug : String) (c : Chat) (s : String)
    (h : (b s).isSome) : ((pushIf cond b slug c) s).isSome := by
  cases cond
  · exact h
  · exact bucketPush_isSome b slug c s h

lemma stagePush_isSome (leads : String → Option Lead) (b : Buckets) (c : Chat)
    (s : String) (h : (b s).isSome) : ((stagePush leads b c) s).isSome := by
  unfold stagePush
  cases hl : leads c.id with
  | none => exact h
  | some l =>
    show ((if l.stage_slug = "" then b else bucketPush b l.stage_slug c) s).isSome = true
    by_cases hs : l.stage_slug = ""
    · rw [if_pos hs]
      exact h
    · rw [if_neg hs]
      exact bucketPush_isSome b l.stage_slug c s h

lemma categorizeChat_isSome (leads : String → Option Lead) (b : Buckets) (c : Chat)
    (s : String) (h : (b s).isSome) : ((categorizeChat leads b c) s).isSome := by
  unfold categorizeChat
  by_cases ha : c.f.archive = true
  · rw [if_pos (by simp [ha])]
    exact h
  · rw [if_neg (by simp [Bool.not_eq_true] at ha; simp [ha])]
    exact stagePush_isSome _ _ _ _ (pushIf_isSome _ _ _ _ _ (pushIf_isSome _ _ _ _ _
      (pushIf_isSome _ _ _ _ _ (bucketPush_isSome _ _ _ _ h))))

lemma foldl_categorize_isSome (leads : String → Option Lead) (chats : List Chat)
    (b : Buckets) (s : String) (h : (b s).isSome) :
    ((chats.foldl (categorizeChat leads) b) s).isSome := by
  induction chats generalizing b with
  | nil => exact h
  | cons c rest ih => exact ih _ (categorizeChat_isSome leads b c s h)

lemma buildBuckets_defined (stages : List Stage) (leads : String → Option Lead)
    (chats : List Chat) (slug : String) (h : slug ∈ builtinSlugs) :
    ((buildBuckets stages leads chats).buckets slug).isSome := by
  show (((sortChats chats).foldl (categorizeChat leads) (initBuckets stages)) slug).isSome
  apply foldl_categorize_isSome
  rw [initBuckets_apply]
  simp [h]

lemma mutateChat_isSome (e : Engine) (cid : String) (nf : ChatFields) (s : String)
    (h : (e.buckets s).isSome) : ((mutateChat e cid nf).buckets s).isSome := by
  show ((e.buckets s).map (List.map (setFields cid nf))).isSome
  simpa using h

/-- `addToBucket` leaves every other (slug, id) membership unchanged,
provided the map only yields a chat whose id is the queried one. -/
lemma mem_addToBucket_ne (map : String → Option Chat) (b : Buckets) (cid slug : String)
    (hid : ∀ ch, map cid = some ch → ch.id = cid) (s d : String)
    (h : ¬(s = slug ∧ d = cid)) :
    memBucket (addToBucket map b cid slug) s d = memBucket b s d := by
  unfold addToBucket
  split
  · rfl
  next arr hb =>
    split
    · rfl
    next ch hm =>
      split
      · rfl
      next harch =>
        split
        · rfl
        next hany =>
          unfold memBucket bucketSet
          by_cases hs : s = slug
          · have hd : d ≠ cid := fun hdc => h ⟨hs, hdc⟩
            subst hs
            rw [if_pos rfl, hb]
            show (List.any (ch :: arr) fun c2 => c2.id == d) = _
            rw [List.any_cons]
            have hch : (ch.id == d) = false := by
              rw [hid ch hm]
              exact beq_eq_false_iff_ne.mpr (fun hcd => hd hcd.symm)
            rw [hch, Bool.false_or]
          · rw [if_neg hs]

/-- `addToBucket` does place the (non-archived, mapped) chat into a
present bucket. -/
lemma mem_addToBucket_self (map : String → Option Chat) (b : Buckets) (cid slug : String)
    (ch : Chat) (hm : map cid = some ch) (hcid : ch.id = cid)
    (harch : ch.f.archive = false) (hdef : (b slug).isSome) :
    memBucket (addToBucket map b cid slug) slug cid = true := by
  unfold addToBucket
  split
  next hb => rw [hb] at hdef; cases hdef
  next arr hb =>
    split
    next hm2 => rw [hm2] at hm; cases hm
    next ch2 hm2 =>
      rw [hm2] at hm
      cases hm
      split
      next harch2 => rw [harch] at harch2; cases harch2
      next =>
        split
        next hany =>
          unfold memBucket
          rw [hb]
          exact hany
        next hany =>
          unfold memBucket bucketSet
          rw [if_pos rfl]
          show (List.any (ch :: arr) fun c2 => c2.id == cid) = true
          rw [List.any_cons, hcid]
          simp

lemma mem_removeFromBucket_some_ne (b : Buckets) (cid slug s d : String)
    (h : ¬(s = slug ∧ d = cid)) :
    memBucket (removeFromBucket b cid (some slug)) s d = memBucket b s d := by
  have hred : removeFromBucket b cid (some slug)
      = (match b slug with
         | some arr => bucketSet b slug (arr.filter (fun c => c.id != cid))
         | none => b) := rfl
  rw [hred]
  cases hb : b slug with
  | none => rfl
  | some arr =>
    show memBucket (bucketSet b slug (arr.filter (fun c => c.id != cid))) s d = _
    unfold memBucket bucketSet
    by_cases hs : s = slug
    · have hd : d ≠ cid := fun hdc => h ⟨hs, hdc⟩
      subst hs
      rw [if_pos rfl, hb]
      apply bool_eq_of_iff
      simp only [List.any_eq_true, List.mem_filter, beq_iff_eq, bne_iff_ne, ne_eq]
      constructor
      · rintro ⟨c2, ⟨hc2, _⟩, hcd⟩
        exact ⟨c2, hc2, hcd⟩
      · rintro ⟨c2, hc2, hcd⟩
        exact ⟨c2, ⟨hc2, fun he => hd (by rw [← hcd, he])⟩, hcd⟩
    · rw [if_neg hs]

lemma mem_removeFromBucket_some_self (b : Buckets) (cid slug : String) :
    memBucket (removeFromBucket b cid (some slug)) slug cid = false := by
  have hred : removeFromBucket b cid (some slug)
      = (match b slug with
         | some arr => bucketSet b slug (arr.filter (fun c => c.id != cid))
         | none => b) := rfl
  rw [hred]
  cases hb : b slug with
  | none =>
    show memBucket b slug cid = false
    unfold memBucket
    rw [hb]
  | some arr =>
    show memBucket (bucketSet b slug (arr.filter (fun c => c.id != cid))) slug cid = false
    unfold memBucket bucketSet
    rw [if_pos rfl]
    rw [Bool.eq_false_iff]
    intro hex
    rw [List.any_eq_true] at hex
    obtain ⟨c2, hc2, hcd⟩ := hex
    have hne := (List.mem_filter.mp hc2).2
    rw [bne_iff_ne] at hne
    exact hne (by simpa using hcd)

lemma reinitBuckets_apply (b : Buckets) (stages : List Stage) (s : String) :
    reinitBuckets b stages s =
      if s ∈ nonDefaultSlugs stages ∨ s ∈ refreshedBuiltins then some []
      else b s := by
  rw [reinitBuckets, stagesInit_apply]
  by_cases hn : s ∈ nonDefaultSlugs stages
  · simp [hn]
  · rw [if_neg hn]
    by_cases h4 : s = "groups"
    · simp [bucketSet, h4, refreshedBuiltins]
    · by_cases h3 : s = "needs-reply"
      · simp [bucketSet, h4, h3, refreshedBuiltins]
      · by_cases h2 : s = "unread-chats"
        · simp [bucketSet, h4, h3, h2, refreshedBuiltins]
        · by_cases h1 : s = "all-chats"
          · simp [bucketSet, h4, h3, h2, h1, refreshedBuiltins]
          · simp [bucketSet, h4, h3, h2, h1, refreshedBuiltins, hn]

lemma mem_reinitBuckets (b : Buckets) (stages : List Stage) (s d : String) :
    memBucket (reinitBuckets b stages) s d = true ↔
      s ∉ nonDefaultSlugs stages ∧ s ∉ refreshedBuiltins ∧ memBucket b s d = true := by
  unfold memBucket
  rw [reinitBuckets_apply]
  by_cases h : s ∈ nonDefaultSlugs stages ∨ s ∈ refreshedBuiltins
  · rw [if_pos h]
    simp only [List.any_nil, Bool.false_eq_true, false_iff]
    tauto
  · rw [if_neg h]
    push_neg at h
    simp [h.1, h.2]

lemma mem_refreshBuckets_iff (e : Engine) (hne : e.liveChatModels ≠ []) (s d : String) :
    memBucket (refreshBuckets e).buckets s d = true ↔
      memBucket (reinitBuckets e.buckets e.stages) s d = true ∨
        ∃ c ∈ e.liveChatModels, c.id = d ∧ chatInSlugB e.leads c s = true := by
  unfold refreshBuckets
  rw [if_neg (by simpa using hne)]
  show memBucket ((sortChats e.liveChatModels).foldl (categorizeChat e.leads)
    (reinitBuckets e.buckets e.stages)) s d = true ↔ _
  rw [mem_foldl_categorize_iff]
  constructor
  · rintro (h | ⟨c, hc, hrest⟩)
    · exact Or.inl h
    · exact Or.inr ⟨c, (mem_sortChats _ c).mp hc, hrest⟩
  · rintro (h | ⟨c, hc, hrest⟩)
    · exact Or.inl h
    · exact Or.inr ⟨c, (mem_sortChats _ c).mpr hc, hrest⟩

lemma chatInSlugB_empty (leads : String → Option Lead) (c : Chat) :
    chatInSlugB leads c "" = false := by
  rw [chatInSlugB]
  have hmatch : (match leads c.id with
      | some l => !(l.stage_slug == "") && l.stage_slug == ""
      | none => false) = false := by
    cases leads c.id with
    | none => rfl
    | some l => exact Bool.not_and_self _
  rw [hmatch]
  cases hA : c.f.archive <;> cases hU : isUnread c <;> cases hG : c.f.isGroup <;>
    cases hR : needsReply c <;> rfl

lemma updateMap_self (e : Engine) (c : Chat) : updateMap e c c.id = some c := by
  unfold updateMap
  rw [if_pos rfl]

lemma updateMap_id (e : Engine) (c : Chat) :
    ∀ ch, updateMap e c c.id = some ch → ch.id = c.id := by
  intro ch hch
  rw [updateMap_self] at hch
  cases hch
  rfl

lemma addToBucket_isSome (map : String → Option Chat) (b : Buckets)
    (cid slug s : String) (h : (b s).isSome) :
    ((addToBucket map b cid slug) s).isSome := by
  unfold addToBucket
  split
  · cases b slug <;> exact h
  · rename_i ch hm
    cases hb2 : b slug with
    | none => exact h
    | some arr =>
      show ((if ch.f.archive = true then b
        else if (arr.any fun c => c.id == cid) = true then b
        else bucketSet b slug (ch :: arr)) s).isSome = true
      by_cases harch : ch.f.archive = true
      · rw [if_pos harch]
        exact h
      · rw [if_neg harch]
        by_cases hany : (arr.any fun c => c.id == cid) = true
        · rw [if_pos hany]
          exact h
        · rw [if_neg hany]
          show (if s = slug then some (ch :: arr) else b s).isSome = true
          by_cases hs : s = slug
          · rw [if_pos hs]
            rfl
          · rw [if_neg hs]
            exact h

lemma removeFromBucket_some_isSome (b : Buckets) (cid slug s : String)
    (h : (b s).isSome) : ((removeFromBucket b cid (some slug)) s).isSome := by
  have hred : removeFromBucket b cid (some slug)
      = (match b slug with
         | some arr => bucketSet b slug (arr.filter (fun c => c.id != cid))
         | none => b) := rfl
  rw [hred]
  cases hb : b slug with
  | none => exact h
  | some arr =>
    show (if s = slug then some (arr.filter (fun c => c.id != cid)) else b s).isSome = true
    by_cases hs : s = slug
    · rw [if_pos hs]
      rfl
    · rw [if_neg hs]
      exact h

lemma repairUnread_isSome (map : String → Option Chat) (b : Buckets) (c : Chat)
    (s : String) (h : (b s).isSome) : ((repairUnread map b c) s).isSome := by
  unfold repairUnread
  by_cases hu : isUnread c = true
  · rw [if_pos hu]
    exact addToBucket_isSome map b c.id _ s h
  · rw [if_neg hu]
    exact removeFromBucket_some_isSome b c.id _ s h

lemma repairGroups_isSome (map : String → Option Chat) (b : Buckets) (c : Chat)
    (s : String) (h : (b s).isSome) : ((repairGroups map b c) s).isSome := by
  unfold repairGroups
  by_cases hg : c.f.isGroup = true
  · rw [if_pos hg]
    exact addToBucket_isSome map b c.id _ s h
  · rw [if_neg hg]
    exact h

lemma mem_repairUnread_ne (map : String → Option Chat) (b : Buckets) (c : Chat)
    (hid : ∀ ch, map c.id = some ch → ch.id = c.id) (s d : String)
    (h : ¬(s = "unread-chats" ∧ d = c.id)) :
    memBucket (repairUnread map b c) s d = memBucket b s d := by
  unfold repairUnread
  by_cases hu : isUnread c = true
  · rw [if_pos hu]
    exact mem_addToBucket_ne map b c.id _ hid s d h
  · rw [if_neg hu]
    exact mem_removeFromBucket_some_ne b c.id _ s d h

lemma mem_repairGroups_ne (map : String → Option Chat) (b : Buckets) (c : Chat)
    (hid : ∀ ch, map c.id = some ch → ch.id = c.id) (s d : String)
    (h : ¬(s = "groups" ∧ d = c.id)) :
    memBucket (repairGroups map b c) s d = memBucket b s d := by
  unfold repairGroups
  by_cases hg : c.f.isGroup = true
  · rw [if_pos hg]
    exact mem_addToBucket_ne map b c.id _ hid s d h
  · rw [if_neg hg]

lemma mem_repairNeedsReply_ne (map : String → Option Chat) (b : Buckets) (c : Chat)
    (hid : ∀ ch, map c.id = some ch → ch.id = c.id) (s d : String)
    (h : ¬(s = "needs-reply" ∧ d = c.id)) :
    memBucket (repairNeedsReply map b c) s d = memBucket b s d := by
  unfold repairNeedsReply
  by_cases hr : needsReply c = true
  · rw [if_pos hr]
    exact mem_addToBucket_ne map b c.id _ hid s d h
  · rw [if_neg hr]
    exact mem_removeFromBucket_some_ne b c.id _ s d h

lemma mem_repairUnread_self (map : String → Option Chat) (b : Buckets) (c : Chat)
    (hm : map c.id = some c) (harch : c.f.archive = false)
    (hdef : (b "unread-chats").isSome) :
    memBucket (repairUnread map b c) "unread-chats" c.id = isUnread c := by
  unfold repairUnread
  by_cases hu : isUnread c = true
  · rw [if_pos hu, hu]
    exact mem_addToBucket_self map b c.id _ c hm rfl harch hdef
  · have hu2 : isUnread c = false := by simpa using hu
    rw [if_neg hu, hu2]
    exact mem_removeFromBucket_some_self b c.id _

lemma mem_repairGroups_self (map : String → Option Chat) (b : Buckets) (c : Chat)
    (hm : map c.id = some c) (harch : c.f.archive = false)
    (hdef : (b "groups").isSome) :
    memBucket (repairGroups map b c) "groups" c.id
      = (c.f.isGroup || memBucket b "groups" c.id) := by
  unfold repairGroups
  by_cases hg : c.f.isGroup = true
  · rw [if_pos hg, hg, Bool.true_or]
    exact mem_addToBucket_self map b c.id _ c hm rfl harch hdef
  · have hg2 : c.f.isGroup = false := by simpa using hg
    rw [if_neg hg, hg2, Bool.false_or]

lemma mem_repairNeedsReply_self (map : String → Option Chat) (b : Buckets) (c : Chat)
    (hm : map c.id = some c) (harch : c.f.archive = false)
    (hdef : (b "needs-reply").isSome) :
    memBucket (repairNeedsReply map b c) "needs-reply" c.id = needsReply c := by
  unfold repairNeedsReply
  by_cases hr : needsReply c = true
  · rw [if_pos hr, hr]
    exact mem_addToBucket_self map b c.id _ c hm rfl harch hdef
  · have hr2 : needsReply c = false := by simpa using hr
    rw [if_neg hr, hr2]
    exact mem_removeFromBucket_some_self b c.id _

lemma onChatChanged_buckets (e : Engine) (c : Chat) :
    (onChatChanged e c).buckets
      = repairNeedsReply (updateMap e c)
          (repairGroups (updateMap e c) (repairUnread (updateMap e c) e.buckets c) c) c := rfl

/-- Membership at a (slug, id) pair not repaired by `onChatChanged` is
untouched. -/
lemma mem_onChatChanged_other (e : Engine) (c : Chat) (s d : String)
    (h : d ≠ c.id ∨ (s ≠ "unread-chats" ∧ s ≠ "groups" ∧ s ≠ "needs-reply")) :
    memBucket (onChatChanged e c).buckets s d = memBucket e.buckets s d := by
  have hne : ∀ slug : String, s ≠ slug ∨ d ≠ c.id → ¬(s = slug ∧ d = c.id) := by
    rintro slug (h1 | h1) ⟨h2, h3⟩
    · exact h1 h2
    · exact h1 h3
  have hid := updateMap_id e c
  rw [onChatChanged_buckets]
  rw [mem_repairNeedsReply_ne _ _ _ hid s d (hne _ (by tauto))]
  rw [mem_repairGroups_ne _ _ _ hid s d (hne _ (by tauto))]
  rw [mem_repairUnread_ne _ _ _ hid s d (hne _ (by tauto))]

/-! ### C2: membership after a full rebuild -/

/-- The concrete conversation and CRM data for the C2 counterexample:
a stage literally named "Unread Chats" slugifies to "unread-chats", the
engine's reserved slug for the unread bucket. -/
def c2chat : Chat := ⟨"a@c.us", ⟨false, 0, false, false, 5, 0, []⟩⟩

def c2lead : Lead := ⟨"Unread Chats", slugify "Unread Chats", "Asha", "919876543210"⟩

def c2stages : List Stage := [⟨slugify "Unread Chats", false⟩]

def c2leads : String → Option Lead :=
  fun s => if s = "a@c.us" then some c2lead else none

/-- C2 (counterexample).  The claim says a conversation is in
"unread-chats" iff its unread count is positive or its unread flag is
set.  A CRM stage named "Unread Chats" slugifies to the reserved slug
"unread-chats", so its lead's conversation is pushed into the unread
bucket by the stage join of `buildBuckets` even though it is read. -/
theorem C2_counterexample :
    isUnread c2chat = false ∧
    memBucket (buildBuckets c2stages c2leads [c2chat]).buckets
      "unread-chats" "a@c.us" = true := by
  constructor
  · rfl
  · rw [mem_buildBuckets_iff]
    exact ⟨c2chat, by simp, rfl, by decide⟩

/-- C2 (amended).  After a full rebuild — provided chat ids are
distinct and no lead stage slug collides with a reserved built-in
bucket slug — an archived conversation is in no bucket, and a
non-archived one is in "all-chats", in "unread-chats" exactly when
unread, in "groups" exactly when a group, in "needs-reply" exactly when
it is a non-group unread chat whose most recent message is not the
local user's, and in a stage bucket exactly when the lead joined by
conversation id resolves to that stage slug. -/
theorem C2_full_rebuild_membership
    (stages : List Stage) (leads : String → Option Lead) (chats : List Chat)
    (c : Chat) (hnd : chatIdsNodup chats) (hc : c ∈ chats)
    (hdisj : LeadSlugsDisjoint leads) :
    (c.f.archive = true → ∀ s,
      memBucket (buildBuckets stages leads chats).buckets s c.id = false) ∧
    (c.f.archive = false →
      memBucket (buildBuckets stages leads chats).buckets "all-chats" c.id = true ∧
      memBucket (buildBuckets stages leads chats).buckets "unread-chats" c.id
        = isUnread c ∧
      memBucket (buildBuckets stages leads chats).buckets "groups" c.id
        = c.f.isGroup ∧
      memBucket (buildBuckets stages leads chats).buckets "needs-reply" c.id
        = needsReply c ∧
      (∀ σ, σ ∉ builtinSlugs → σ ≠ "" →
        (memBucket (buildBuckets stages leads chats).buckets σ c.id = true ↔
          ∃ l, leads c.id = some l ∧ l.stage_slug = σ))) := by
  have hmem := fun s => mem_buildBuckets_of_mem stages leads chats c hnd hc s
  constructor
  · intro ha s
    rw [hmem s, chatInSlugB_archived leads c ha]
  · intro ha
    refine ⟨?_, ?_, ?_, ?_, ?_⟩
    · rw [hmem _, chatInSlugB_all, ha]
      rfl
    · rw [hmem _, chatInSlugB_unread leads hdisj, ha]
      simp
    · rw [hmem _, chatInSlugB_groups leads hdisj, ha]
      simp
    · rw [hmem _, chatInSlugB_needsReply leads hdisj, ha]
      simp
    · intro σ hσb hσe
      rw [hmem _, chatInSlugB_stage_iff leads c σ hσb hσe]
      simp [ha]

/-! ### C1: incremental repair versus full rebuild -/

/-- Old fields of the C1 counterexample chat: not archived, one unread
message not from the local user. -/
def c1f0 : ChatFields := ⟨false, 1, false, false, 5, 0, [⟨⟨false⟩⟩]⟩

/-- New fields: the user archived the chat; it is still unread. -/
def c1f1 : ChatFields := ⟨true, 1, false, false, 5, 0, [⟨⟨false⟩⟩]⟩

/-- The engine state after a full rebuild over the single chat followed
by the in-place archive mutation. -/
def c1e1 : Engine :=
  mutateChat (buildBuckets [] (fun _ => none) [⟨"a@c.us", c1f0⟩]) "a@c.us" c1f1

/-- C1 (counterexample).  After the chat is archived while still
unread, the incremental repair (`onChatChanged`) leaves it in
"unread-chats" — `addToBucket` refuses archived chats but nothing
removes an archived chat that is already there — while a full rebuild
(`refreshBuckets`) excludes it.  Membership after the two paths
differs at the same underlying field values. -/
theorem C1_counterexample :
    memBucket (onChatChanged c1e1 ⟨"a@c.us", c1f1⟩).buckets
      "unread-chats" "a@c.us" = true ∧
    memBucket (refreshBuckets c1e1).buckets "unread-chats" "a@c.us" = false := by
  constructor
  · rfl
  · rfl

/-- C1 (amended).  For a single conversation field change that does not
touch the archived flag (false before and after) or the group flag,
and with distinct chat ids and lead slugs that avoid the reserved
built-in bucket names, the incremental repair path and a full rebuild
agree on membership of every conversation in every bucket. -/
theorem C1_incremental_repair_matches_rebuild
    (stages : List Stage) (leads : String → Option Lead) (chats : List Chat)
    (cid : String) (f0 f1 : ChatFields)
    (hnd : chatIdsNodup chats) (hmemc : Chat.mk cid f0 ∈ chats)
    (hdisj : LeadSlugsDisjoint leads)
    (h0 : f0.archive = false) (h1 : f1.archive = false)
    (hg : f0.isGroup = f1.isGroup) (s d : String) :
    memBucket (onChatChanged
        (mutateChat (buildBuckets stages leads chats) cid f1) ⟨cid, f1⟩).buckets s d
      = memBucket (refreshBuckets
        (mutateChat (buildBuckets stages leads chats) cid f1)).buckets s d := by
  have hne : (mutateChat (buildBuckets stages leads chats) cid f1).liveChatModels ≠ [] := by
    rw [mutateChat_models, buildBuckets_models]
    exact List.ne_nil_of_mem
      (List.mem_map_of_mem _ ((mem_sortChats chats _).mpr hmemc))
  have hstages : (mutateChat (buildBuckets stages leads chats) cid f1).stages = stages := rfl
  have hleads : (mutateChat (buildBuckets stages leads chats) cid f1).leads = leads := rfl
  have hR1 := mem_refreshBuckets_iff _ hne s d
  rw [mem_reinitBuckets, hstages, hleads, mem_mutateChat, mem_buildBuckets_iff,
    mutateChat_models, buildBuckets_models] at hR1
  have hmap : (∃ c ∈ (sortChats chats).map (setFields cid f1),
        c.id = d ∧ chatInSlugB leads c s = true) ↔
      (∃ c0 ∈ chats, c0.id = d ∧ chatInSlugB leads (setFields cid f1 c0) s = true) := by
    constructor
    · rintro ⟨c, hc, hid, hp⟩
      obtain ⟨c0, hc0, rfl⟩ := List.mem_map.mp hc
      rw [setFields_id] at hid
      exact ⟨c0, (mem_sortChats chats c0).mp hc0, hid, hp⟩
    · rintro ⟨c0, hc0, hid, hp⟩
      exact ⟨setFields cid f1 c0,
        List.mem_map_of_mem _ ((mem_sortChats chats c0).mpr hc0),
        by rw [setFields_id]; exact hid, hp⟩
  rw [hmap] at hR1
  apply bool_eq_of_iff
  rw [hR1]
  have hdefU : ((mutateChat (buildBuckets stages leads chats) cid f1).buckets
      "unread-chats").isSome :=
    mutateChat_isSome _ cid f1 _ (buildBuckets_defined stages leads chats _ (by decide))
  have hdefG0 : ((mutateChat (buildBuckets stages leads chats) cid f1).buckets
      "groups").isSome :=
    mutateChat_isSome _ cid f1 _ (buildBuckets_defined stages leads chats _ (by decide))
  have hdefN0 : ((mutateChat (buildBuckets stages leads chats) cid f1).buckets
      "needs-reply").isSome :=
    mutateChat_isSome _ cid f1 _ (buildBuckets_defined stages leads chats _ (by decide))
  by_cases hd : d = cid
  · subst hd
    have huniq : ∀ P : Chat → Prop, Decidable (P ⟨d, f0⟩) →
        ((∃ c0 ∈ chats, c0.id = d ∧ P c0) ↔ P ⟨d, f0⟩) := by
      intro P _
      constructor
      · rintro ⟨c0, hc0, hid, hp⟩
        have hco : c0 = ⟨d, f0⟩ := List.inj_on_of_nodup_map hnd hc0 hmemc hid
        rwa [hco] at hp
      · intro hp
        exact ⟨⟨d, f0⟩, hmemc, rfl, hp⟩
    have hu1 : (∃ c0 ∈ chats, c0.id = d ∧ chatInSlugB leads c0 s = true) ↔
        chatInSlugB leads ⟨d, f0⟩ s = true := by
      constructor
      · rintro ⟨c0, hc0, hid, hp⟩
        have hco : c0 = ⟨d, f0⟩ := List.inj_on_of_nodup_map hnd hc0 hmemc hid
        rwa [hco] at hp
      · intro hp
        exact ⟨⟨d, f0⟩, hmemc, rfl, hp⟩
    have hu2 : (∃ c0 ∈ chats, c0.id = d ∧
          chatInSlugB leads (setFields d f1 c0) s = true) ↔
        chatInSlugB leads ⟨d, f1⟩ s = true := by
      constructor
      · rintro ⟨c0, hc0, hid, hp⟩
        have hco : c0 = ⟨d, f0⟩ := List.inj_on_of_nodup_map hnd hc0 hmemc hid
        rw [hco, setFields_self] at hp
        exact hp
      · intro hp
        refine ⟨⟨d, f0⟩, hmemc, rfl, ?_⟩
        rw [setFields_self]
        exact hp
    rw [hu1, hu2]
    by_cases hsu : s = "unread-chats"
    · subst hsu
      have hL : memBucket (onChatChanged
          (mutateChat (buildBuckets stages leads chats) d f1) ⟨d, f1⟩).buckets
          "unread-chats" d = isUnread ⟨d, f1⟩ := by
        rw [onChatChanged_buckets]
        rw [mem_repairNeedsReply_ne _ _ _ (updateMap_id _ _) _ _
          (by rintro ⟨hx, -⟩; exact absurd hx (by decide))]
        rw [mem_repairGroups_ne _ _ _ (updateMap_id _ _) _ _
          (by rintro ⟨hx, -⟩; exact absurd hx (by decide))]
        exact mem_repairUnread_self _ _ _ (updateMap_self _ _) h1 hdefU
      rw [hL, chatInSlugB_unread leads hdisj, chatInSlugB_unread leads hdisj]
      simp only [h0, h1, Bool.not_false, Bool.true_and]
      constructor
      · intro hiu
        exact Or.inr hiu
      · rintro (⟨-, hrb, -⟩ | hiu)
        · exact absurd (by decide) hrb
        · exact hiu
    · by_cases hsg : s = "groups"
      · subst hsg
        have hL : memBucket (onChatChanged
            (mutateChat (buildBuckets stages leads chats) d f1) ⟨d, f1⟩).buckets
            "groups" d = (f1.isGroup ||
              memBucket (mutateChat (buildBuckets stages leads chats) d f1).buckets
                "groups" d) := by
          rw [onChatChanged_buckets]
          rw [mem_repairNeedsReply_ne _ _ _ (updateMap_id _ _) _ _
            (by rintro ⟨hx, -⟩; exact absurd hx (by decide))]
          have hdefG1 : ((repairUnread (updateMap
              (mutateChat (buildBuckets stages leads chats) d f1) ⟨d, f1⟩)
              (mutateChat (buildBuckets stages leads chats) d f1).buckets ⟨d, f1⟩)
              "groups").isSome :=
            repairUnread_isSome _ _ _ _ hdefG0
          rw [mem_repairGroups_self _ _ _ (updateMap_self _ _) h1 hdefG1]
          rw [mem_repairUnread_ne _ _ _ (updateMap_id _ _) _ _
            (by rintro ⟨hx, -⟩; exact absurd hx (by decide))]
        rw [hL]
        simp only [Bool.or_eq_true]
        rw [mem_mutateChat, mem_buildBuckets_iff, hu1,
          chatInSlugB_groups leads hdisj, chatInSlugB_groups leads hdisj]
        simp only [h0, h1, Bool.not_false, Bool.true_and]
        constructor
        · rintro (hgr | hgr)
          · exact Or.inr hgr
          · exact Or.inr (by rw [← hg]; exact hgr)
        · rintro (⟨-, hrb, -⟩ | hgr)
          · exact absurd (by decide) hrb
          · exact Or.inl hgr
      · by_cases hsn : s = "needs-reply"
        · subst hsn
          have hL : memBucket (onChatChanged
              (mutateChat (buildBuckets stages leads chats) d f1) ⟨d, f1⟩).buckets
              "needs-reply" d = needsReply ⟨d, f1⟩ := by
            rw [onChatChanged_buckets]
            have hdefN1 : ((repairGroups (updateMap
                (mutateChat (buildBuckets stages leads chats) d f1) ⟨d, f1⟩)
                (repairUnread (updateMap
                  (mutateChat (buildBuckets stages leads chats) d f1) ⟨d, f1⟩)
                  (mutateChat (buildBuckets stages leads chats) d f1).buckets ⟨d, f1⟩)
                ⟨d, f1⟩) "needs-reply").isSome :=
              repairGroups_isSome _ _ _ _ (repairUnread_isSome _ _ _ _ hdefN0)
            exact mem_repairNeedsReply_self _ _ _ (updateMap_self _ _) h1 hdefN1
          rw [hL, chatInSlugB_needsReply leads hdisj,
            chatInSlugB_needsReply leads hdisj]
          simp only [h0, h1, Bool.not_false, Bool.true_and]
          constructor
          · intro hnr
            exact Or.inr hnr
          · rintro (⟨-, hrb, -⟩ | hnr)
            · exact absurd (by decide) hrb
            · exact hnr
        · have hL : memBucket (onChatChanged
              (mutateChat (buildBuckets stages leads chats) d f1) ⟨d, f1⟩).buckets
              s d = memBucket
                (mutateChat (buildBuckets stages leads chats) d f1).buckets s d :=
            mem_onChatChanged_other _ _ s d (Or.inr ⟨hsu, hsg, hsn⟩)
          rw [hL, mem_mutateChat, mem_buildBuckets_iff, hu1]
          by_cases hsa : s = "all-chats"
          · subst hsa
            rw [chatInSlugB_all, chatInSlugB_all]
            simp only [h0, h1, Bool.not_false]
            constructor
            · intro ht
              exact Or.inr trivial
            · intro hrc
              trivial
          · by_cases hsp : s = "pending-reminders"
            · subst hsp
              rw [chatInSlugB_pending leads hdisj, chatInSlugB_pending leads hdisj]
              constructor
              · intro hfalse
                cases hfalse
              · rintro (⟨-, -, hfalse⟩ | hfalse) <;> cases hfalse
            · have hsb : s ∉ builtinSlugs := by
                intro hmem2
                simp only [builtinSlugs, List.mem_cons, List.not_mem_nil,
                  or_false] at hmem2
                rcases hmem2 with h | h | h | h | h
                · exact hsa h
                · exact hsu h
                · exact hsn h
                · exact hsg h
                · exact hsp h
              by_cases hse : s = ""
              · subst hse
                rw [chatInSlugB_empty, chatInSlugB_empty]
                constructor
                · intro hfalse
                  cases hfalse
                · rintro (⟨-, -, hfalse⟩ | hfalse) <;> cases hfalse
              · rw [chatInSlugB_stage_iff leads ⟨d, f0⟩ s hsb hse,
                  chatInSlugB_stage_iff leads ⟨d, f1⟩ s hsb hse]
                constructor
                · rintro ⟨-, hE⟩
                  exact Or.inr ⟨h1, hE⟩
                · rintro (⟨-, -, -, hE⟩ | ⟨-, hE⟩)
                  · exact ⟨h0, hE⟩
                  · exact ⟨h0, hE⟩
  · have hdne : d ≠ (Chat.mk cid f1).id := hd
    have hL : memBucket (onChatChanged
        (mutateChat (buildBuckets stages leads chats) cid f1) ⟨cid, f1⟩).buckets
        s d = memBucket
          (mutateChat (buildBuckets stages leads chats) cid f1).buckets s d :=
      mem_onChatChanged_other _ _ s d (Or.inl hdne)
    rw [hL, mem_mutateChat, mem_buildBuckets_iff]
    have hsame : (∃ c0 ∈ chats, c0.id = d ∧
          chatInSlugB leads (setFields cid f1 c0) s = true) ↔
        (∃ c0 ∈ chats, c0.id = d ∧ chatInSlugB leads c0 s = true) := by
      constructor
      · rintro ⟨c0, hc0, hid, hp⟩
        rw [setFields_other cid f1 c0 (by rw [hid]; exact hd)] at hp
        exact ⟨c0, hc0, hid, hp⟩
      · rintro ⟨c0, hc0, hid, hp⟩
        refine ⟨c0, hc0, hid, ?_⟩
        rw [setFields_other cid f1 c0 (by rw [hid]; exact hd)]
        exact hp
    rw [hsame]
    constructor
    · intro hX
      exact Or.inr hX
    · rintro (⟨-, -, hX⟩ | hX)
      · exact hX
      · exact hX

/-- Concrete data for the C1 witness: a chat that goes from read to
unread without archive or group changes. -/
def c1wf0 : ChatFields := ⟨false, 0, false, false, 3, 0, []⟩

def c1wf1 : ChatFields := ⟨false, 2, false, false, 4, 0, [⟨⟨false⟩⟩]⟩

/-- C1 (witness): the amended equivalence evaluated at a concrete
unread-count change. -/
theorem C1_incremental_repair_matches_rebuild_witness :
    memBucket (onChatChanged
        (mutateChat (buildBuckets [] (fun _ => none) [⟨"w@c.us", c1wf0⟩])
          "w@c.us" c1wf1) ⟨"w@c.us", c1wf1⟩).buckets "unread-chats" "w@c.us"
      = memBucket (refreshBuckets
        (mutateChat (buildBuckets [] (fun _ => none) [⟨"w@c.us", c1wf0⟩])
          "w@c.us" c1wf1)).buckets "unread-chats" "w@c.us" :=
  C1_incremental_repair_matches_rebuild [] (fun _ => none) [⟨"w@c.us", c1wf0⟩]
    "w@c.us" c1wf0 c1wf1
    (by show (([⟨"w@c.us", c1wf0⟩] : List Chat).map Chat.id).Nodup; decide)
    (by decide)
    (by intro cid l h; cases h)
    rfl rfl rfl "unread-chats" "w@c.us"

/-- Concrete data for the C2 witness: one unread non-group chat joined
to a lead in non-default stage "new-lead". -/
def c2wchat : Chat := ⟨"b@c.us", ⟨false, 2, false, false, 7, 0, [⟨⟨false⟩⟩]⟩⟩

def c2wlead : Lead := ⟨"New Lead", "new-lead", "N", ""⟩

def c2wleads : String → Option Lead :=
  fun s => if s = "b@c.us" then some c2wlead else none

/-- C2 (witness): the amended theorem evaluated on the concrete data. -/
theorem C2_full_rebuild_membership_witness :
    memBucket (buildBuckets [⟨"new-lead", false⟩] c2wleads [c2wchat]).buckets
      "unread-chats" c2wchat.id = isUnread c2wchat ∧
    (memBucket (buildBuckets [⟨"new-lead", false⟩] c2wleads [c2wchat]).buckets
      "new-lead" c2wchat.id = true ↔
        ∃ l, c2wleads c2wchat.id = some l ∧ l.stage_slug = "new-lead") := by
  have hdisj : LeadSlugsDisjoint c2wleads := by
    intro cid l h
    by_cases hc : cid = "b@c.us"
    · subst hc
      have h2 : some c2wlead = some l := h
      cases h2
      decide
    · simp [c2wleads, hc] at h
  have h := C2_full_rebuild_membership [⟨"new-lead", false⟩] c2wleads [c2wchat]
    c2wchat (by show ([c2wchat].map Chat.id).Nodup; decide) (by decide) hdisj
  have h2 := h.2 rfl
  exact ⟨h2.2.1, h2.2.2.2.2 "new-lead" (by decide) (by decide)⟩

/-! ### Reachable states: every-bucket-operation transition system

Value-level lemmas and uniqueness (Nodup) preservation used by the
invariant claims. -/

/-- "Each conversation appears at most once per bucket": no bucket
array contains two entries with the same serialized id. -/
def bucketsNodupB (b : Buckets) : Prop :=
  ∀ slug arr, b slug = some arr → (arr.map Chat.id).Nodup

/-- The live chat map only stores a model under its own id. -/
def mapConsistent (m : String → Option Chat) : Prop :=
  ∀ cid ch, m cid = some ch → ch.id = cid

lemma bucketPush_apply_self (b : Buckets) (slug : String) (c : Chat) :
    (bucketPush b slug c) slug = some ((b slug).getD [] ++ [c]) := by
  show (if slug = slug then some ((b slug).getD [] ++ [c]) else b slug) = _
  rw [if_pos rfl]

lemma bucketPush_apply_ne (b : Buckets) (slug : String) (c : Chat) (s : String)
    (h : s ≠ slug) : (bucketPush b slug c) s = b s := by
  show (if s = slug then some ((b slug).getD [] ++ [c]) else b s) = _
  rw [if_neg h]

lemma pushIf_apply_ne (cond : Bool) (b : Buckets) (slug : String) (c : Chat)
    (s : String) (h : s ≠ slug) : (pushIf cond b slug c) s = b s := by
  cases cond
  · rfl
  · exact bucketPush_apply_ne b slug c s h

lemma stagePush_apply_ne (leads : String → Option Lead) (b : Buckets) (c : Chat)
    (s : String) (h : ∀ l, leads c.id = some l → l.stage_slug ≠ "" → s ≠ l.stage_slug) :
    (stagePush leads b c) s = b s := by
  unfold stagePush
  cases hl : leads c.id with
  | none => rfl
  | some l =>
    show (if l.stage_slug = "" then b else bucketPush b l.stage_slug c) s = b s
    by_cases hs : l.stage_slug = ""
    · rw [if_pos hs]
    · rw [if_neg hs]
      exact bucketPush_apply_ne b l.stage_slug c s (h l hl hs)

/-- The categorization loop never writes to a slug that is not one of
the four push targets or the chat's lead slug. -/
lemma categorizeChat_apply_ne (leads : String → Option Lead) (b : Buckets) (c : Chat)
    (s : String)
    (h4 : s ∉ refreshedBuiltins)
    (hl : ∀ l, leads c.id = some l → l.stage_slug ≠ "" → s ≠ l.stage_slug) :
    (categorizeChat leads b c) s = b s := by
  have h4a : s ≠ "all-chats" := by intro he; exact h4 (by rw [he]; decide)
  have h4u : s ≠ "unread-chats" := by intro he; exact h4 (by rw [he]; decide)
  have h4n : s ≠ "needs-reply" := by intro he; exact h4 (by rw [he]; decide)
  have h4g : s ≠ "groups" := by intro he; exact h4 (by rw [he]; decide)
  unfold categorizeChat
  by_cases ha : c.f.archive = true
  · rw [if_pos (by simp [ha])]
  · rw [if_neg (by simp [Bool.not_eq_true] at ha; simp [ha])]
    rw [stagePush_apply_ne leads _ c s hl, pushIf_apply_ne _ _ _ _ _ h4n,
      pushIf_apply_ne _ _ _ _ _ h4g, pushIf_apply_ne _ _ _ _ _ h4u,
      bucketPush_apply_ne _ _ _ _ h4a]

lemma foldl_categorize_apply_ne (leads : String → Option Lead) (chats : List Chat)
    (b : Buckets) (s : String)
    (h4 : s ∉ refreshedBuiltins)
    (hl : ∀ c ∈ chats, ∀ l, leads c.id = some l → l.stage_slug ≠ "" → s ≠ l.stage_slug) :
    (chats.foldl (categorizeChat leads) b) s = b s := by
  induction chats generalizing b with
  | nil => rfl
  | cons c rest ih =>
    rw [List.foldl_cons, ih _ (fun d hd => hl d (List.mem_cons_of_mem c hd)),
      categorizeChat_apply_ne leads b c s h4 (hl c (List.mem_cons_self c rest))]

lemma bucketsNodupB_bucketSet (b : Buckets) (slug : String) (l : List Chat)
    (hB : bucketsNodupB b) (hl : (l.map Chat.id).Nodup) :
    bucketsNodupB (bucketSet b slug l) := by
  intro s arr harr
  by_cases hs : s = slug
  · subst hs
    have : some l = some arr := by
      rw [← harr]
      show _ = (if s = s then some l else b s)
      rw [if_pos rfl]
    cases this
    exact hl
  · have : b s = some arr := by
      rw [← harr]
      show _ = (if s = slug then some l else b s)
      rw [if_neg hs]
    exact hB s arr this

lemma bucketsNodupB_bucketPush (b : Buckets) (slug : String) (c : Chat)
    (hB : bucketsNodupB b)
    (hfree : ∀ arr, b slug = some arr → c.id ∉ arr.map Chat.id) :
    bucketsNodupB (bucketPush b slug c) := by
  unfold bucketPush
  apply bucketsNodupB_bucketSet b slug _ hB
  cases hb : b slug with
  | none => simp
  | some arr0 =>
    simp only [Option.getD_some, List.map_append, List.map_cons, List.map_nil]
    rw [List.nodup_append]
    refine ⟨hB slug arr0 hb, by simp, ?_⟩
    intro x hx
    simp only [List.mem_singleton]
    intro he
    exact hfree arr0 hb (by rw [← he]; exact hx)

lemma bucketsNodupB_pushIf (cond : Bool) (b : Buckets) (slug : String) (c : Chat)
    (hB : bucketsNodupB b)
    (hfree : ∀ arr, b slug = some arr → c.id ∉ arr.map Chat.id) :
    bucketsNodupB (pushIf cond b slug c) := by
  cases cond
  · exact hB
  · exact bucketsNodupB_bucketPush b slug c hB hfree

lemma bucketsNodupB_stagePush (leads : String → Option Lead) (b : Buckets) (c : Chat)
    (hB : bucketsNodupB b)
    (hfree : ∀ l, leads c.id = some l → l.stage_slug ≠ "" →
      ∀ arr, b l.stage_slug = some arr → c.id ∉ arr.map Chat.id) :
    bucketsNodupB (stagePush leads b c) := by
  unfold stagePush
  cases hl : leads c.id with
  | none => exact hB
  | some l =>
    show bucketsNodupB (if l.stage_slug = "" then b else bucketPush b l.stage_slug c)
    by_cases hs : l.stage_slug = ""
    · rw [if_pos hs]
      exact hB
    · rw [if_neg hs]
      exact bucketsNodupB_bucketPush b l.stage_slug c hB (hfree l hl hs)

lemma pushIf_apply (cond : Bool) (b : Buckets) (slug : String) (c : Chat) :
    (pushIf cond b slug c) slug = if cond then some ((b slug).getD [] ++ [c]) else b slug := by
  cases cond
  · rfl
  · exact bucketPush_apply_self b slug c

/-- Value-level characterization of one categorization step: under
`LeadSlugsDisjoint` the five push targets are pairwise distinct, so
each bucket either gains exactly the one chat (when the categorization
predicate holds there) or is untouched. -/
lemma categorizeChat_apply (leads : String → Option Lead) (b : Buckets) (c : Chat)
    (s : String) (hdisj : LeadSlugsDisjoint leads) :
    (categorizeChat leads b c) s =
      if chatInSlugB leads c s then some ((b s).getD [] ++ [c]) else b s := by
  by_cases ha : c.f.archive = true
  · rw [categorizeChat, if_pos (by simp [ha]), chatInSlugB_archived leads c ha s]
    simp
  · have ha' : c.f.archive = false := by simpa using ha
    rw [categorizeChat, if_neg (by simp [ha'])]
    have hstg : ∀ σ : String, σ ∈ builtinSlugs →
        ∀ l, leads c.id = some l → l.stage_slug ≠ "" → σ ≠ l.stage_slug :=
      fun σ hσ l hl _ he => hdisj c.id l hl (he ▸ hσ)
    by_cases h1 : s = "all-chats"
    · subst h1
      rw [stagePush_apply_ne _ _ _ _ (hstg _ (by decide)),
        pushIf_apply_ne _ _ _ _ _ (by decide), pushIf_apply_ne _ _ _ _ _ (by decide),
        pushIf_apply_ne _ _ _ _ _ (by decide), bucketPush_apply_self,
        chatInSlugB_all leads c, ha']
      rfl
    by_cases h2 : s = "unread-chats"
    · subst h2
      rw [stagePush_apply_ne _ _ _ _ (hstg _ (by decide)),
        pushIf_apply_ne _ _ _ _ _ (by decide), pushIf_apply_ne _ _ _ _ _ (by decide),
        pushIf_apply, bucketPush_apply_ne _ _ _ _ (by decide),
        chatInSlugB_unread leads hdisj c, ha']
      rfl
    by_cases h3 : s = "groups"
    · subst h3
      rw [stagePush_apply_ne _ _ _ _ (hstg _ (by decide)),
        pushIf_apply_ne _ _ _ _ _ (by decide), pushIf_apply,
        pushIf_apply_ne _ _ _ _ _ (by decide), bucketPush_apply_ne _ _ _ _ (by decide),
        chatInSlugB_groups leads hdisj c, ha']
      rfl
    by_cases h4 : s = "needs-reply"
    · subst h4
      rw [stagePush_apply_ne _ _ _ _ (hstg _ (by decide)), pushIf_apply,
        pushIf_apply_ne _ _ _ _ _ (by decide), pushIf_apply_ne _ _ _ _ _ (by decide),
        bucketPush_apply_ne _ _ _ _ (by decide),
        chatInSlugB_needsReply leads hdisj c, ha']
      rfl
    · have hb4 : (pushIf (needsReply c)
          (pushIf c.f.isGroup
            (pushIf (isUnread c)
              (bucketPush b "all-chats" c) "unread-chats" c) "groups" c) "needs-reply" c) s
          = b s := by
        rw [pushIf_apply_ne _ _ _ _ _ h4, pushIf_apply_ne _ _ _ _ _ h3,
          pushIf_apply_ne _ _ _ _ _ h2, bucketPush_apply_ne _ _ _ _ h1]
      rw [chatInSlugB]
      cases hl : leads c.id with
      | none =>
        have hstage : stagePush leads
            (pushIf (needsReply c)
              (pushIf c.f.isGroup
                (pushIf (isUnread c)
                  (bucketPush b "all-chats" c) "unread-chats" c) "groups" c) "needs-reply" c) c
            = pushIf (needsReply c)
              (pushIf c.f.isGroup
                (pushIf (isUnread c)
                  (bucketPush b "all-chats" c) "unread-chats" c) "groups" c) "needs-reply" c := by
          rw [stagePush, hl]
        rw [hstage, hb4, if_neg]
        simp [h1, h2, h3, h4, hl]
      | some l =>
        by_cases h0 : l.stage_slug = ""
        · have hstage : stagePush leads
              (pushIf (needsReply c)
                (pushIf c.f.isGroup
                  (pushIf (isUnread c)
                    (bucketPush b "all-chats" c) "unread-chats" c) "groups" c) "needs-reply" c) c
              = pushIf (needsReply c)
                (pushIf c.f.isGroup
                  (pushIf (isUnread c)
                    (bucketPush b "all-chats" c) "unread-chats" c) "groups" c) "needs-reply" c := by
            rw [stagePush, hl]
            exact if_pos h0
          rw [hstage, hb4, if_neg]
          simp [h1, h2, h3, h4, hl, h0]
        · have hstage : stagePush leads
              (pushIf (needsReply c)
                (pushIf c.f.isGroup
                  (pushIf (isUnread c)
                    (bucketPush b "all-chats" c) "unread-chats" c) "groups" c) "needs-reply" c) c
              = bucketPush
                (pushIf (needsReply c)
                  (pushIf c.f.isGroup
                    (pushIf (isUnread c)
                      (bucketPush b "all-chats" c) "unread-chats" c) "groups" c) "needs-reply" c)
                l.stage_slug c := by
            rw [stagePush, hl]
            exact if_neg h0
          rw [hstage]
          by_cases hsl : s = l.stage_slug
          · subst hsl
            rw [bucketPush_apply_self, hb4, if_pos]
            simp [ha', h0]
          · rw [bucketPush_apply_ne _ _ _ _ hsl, hb4, if_neg]
            simp only [Bool.and_eq_true, Bool.or_eq_true, beq_iff_eq, Bool.not_eq_true',
              not_and, hl]
            intro _
            push_neg
            refine ⟨⟨⟨⟨h1, fun h => absurd h h2⟩, fun h => absurd h h3⟩,
              fun h => absurd h h4⟩, ?_⟩
            intro _
            exact fun he => hsl (he.symm)

/-- Value-level characterization of the whole categorization loop:
each bucket ends as its initial contents followed by the chats
categorized into it, in list order. -/
lemma foldl_categorize_apply (leads : String → Option Lead) (chats : List Chat)
    (b : Buckets) (s : String) (hdisj : LeadSlugsDisjoint leads) :
    (chats.foldl (categorizeChat leads) b) s =
      if (chats.filter (fun c => chatInSlugB leads c s)).isEmpty then b s
      else some ((b s).getD [] ++ chats.filter (fun c => chatInSlugB leads c s)) := by
  induction chats generalizing b with
  | nil => simp
  | cons c rest ih =>
    rw [List.foldl_cons, ih (categorizeChat leads b c)]
    by_cases hc : chatInSlugB leads c s = true
    · rw [List.filter_cons, if_pos hc, categorizeChat_apply leads b c s hdisj, if_pos hc]
      cases hfr : rest.filter (fun c => chatInSlugB leads c s) with
      | nil => simp
      | cons d l => simp
    · rw [List.filter_cons, if_neg hc, categorizeChat_apply leads b c s hdisj, if_neg hc]

lemma chatIdsNodup_sortChats (chats : List Chat) (h : chatIdsNodup chats) :
    chatIdsNodup (sortChats chats) :=
  (((sortChats_perm chats).map Chat.id).nodup_iff).mpr h

lemma chatIdsNodup_map_setFields (cid : String) (nf : ChatFields) (chats : List Chat)
    (h : chatIdsNodup chats) : chatIdsNodup (chats.map (setFields cid nf)) := by
  show ((chats.map (setFields cid nf)).map Chat.id).Nodup
  have h0 : chatIdsNodup chats := h
  simpa [List.map_map, Function.comp_def, setFields_id] using h0

/-- The categorization loop keeps every bucket duplicate-free provided
the pushed chats have distinct ids, no lead slug collides with a
built-in slug, and every bucket a chat is categorized into starts
empty (or absent). -/
lemma bucketsNodupB_foldl_categorize (leads : String → Option Lead) (chats : List Chat)
    (b : Buckets) (hdisj : LeadSlugsDisjoint leads) (hnd : chatIdsNodup chats)
    (hB : bucketsNodupB b)
    (hfresh : ∀ s, (∃ c ∈ chats, chatInSlugB leads c s = true) →
      b s = none ∨ b s = some []) :
    bucketsNodupB (chats.foldl (categorizeChat leads) b) := by
  intro s arr harr
  rw [foldl_categorize_apply leads chats b s hdisj] at harr
  by_cases he : (chats.filter (fun c => chatInSlugB leads c s)).isEmpty = true
  · rw [if_pos he] at harr
    exact hB s arr harr
  · rw [if_neg he] at harr
    have hne : chats.filter (fun c => chatInSlugB leads c s) ≠ [] := by
      intro h0
      exact he (by rw [h0]; rfl)
    obtain ⟨c0, hc0⟩ := List.exists_mem_of_ne_nil _ hne
    have hc0m := List.mem_filter.mp hc0
    have hempty := hfresh s ⟨c0, hc0m.1, hc0m.2⟩
    have hgetD : (b s).getD [] = [] := by
      rcases hempty with h0 | h0 <;> rw [h0] <;> rfl
    rw [hgetD, List.nil_append] at harr
    have harr2 : chats.filter (fun c => chatInSlugB leads c s) = arr := by
      injection harr
    subst harr2
    exact List.Nodup.sublist (List.Sublist.map Chat.id (List.filter_sublist chats)) hnd

/-- A full rebuild produces duplicate-free buckets (it starts from an
all-empty bucket object). -/
lemma bucketsNodupB_buildBuckets (stages : List Stage) (leads : String → Option Lead)
    (chats : List Chat) (hnd : chatIdsNodup chats) (hdisj : LeadSlugsDisjoint leads) :
    bucketsNodupB (buildBuckets stages leads chats).buckets := by
  show bucketsNodupB ((sortChats chats).foldl (categorizeChat leads) (initBuckets stages))
  apply bucketsNodupB_foldl_categorize leads _ _ hdisj (chatIdsNodup_sortChats chats hnd)
  · intro s arr harr
    rw [initBuckets_apply] at harr
    by_cases h : s ∈ nonDefaultSlugs stages ∨ s ∈ builtinSlugs
    · rw [if_pos h] at harr
      have h2 : ([] : List Chat) = arr := by injection harr
      rw [← h2]
      exact List.nodup_nil
    · rw [if_neg h] at harr
      exact absurd harr (by simp)
  · intro s _
    rw [initBuckets_apply]
    by_cases h : s ∈ nonDefaultSlugs stages ∨ s ∈ builtinSlugs
    · rw [if_pos h]
      exact Or.inr rfl
    · rw [if_neg h]
      exact Or.inl rfl

/-- Every slug the categorization predicate can fire at is either one
of the four refreshed built-ins or the chat's own truthy lead slug. -/
lemma chatInSlug_target (leads : String → Option Lead) (c : Chat) (s : String)
    (h : chatInSlugB leads c s = true) :
    s ∈ refreshedBuiltins ∨
      ∃ l, leads c.id = some l ∧ l.stage_slug ≠ "" ∧ l.stage_slug = s := by
  rw [chatInSlugB] at h
  revert h
  cases hl : leads c.id with
  | none =>
    intro h
    simp only [Bool.and_eq_true, Bool.or_eq_true, beq_iff_eq, Bool.false_eq_true,
      or_false] at h
    obtain ⟨-, h⟩ := h
    rcases h with ((h | ⟨h, -⟩) | ⟨h, -⟩) | ⟨h, -⟩
    · left; rw [h]; decide
    · left; rw [h]; decide
    · left; rw [h]; decide
    · left; rw [h]; decide
  | some l =>
    intro h
    simp only [Bool.and_eq_true, Bool.or_eq_true, beq_iff_eq, Bool.not_eq_true',
      beq_eq_false_iff_ne, ne_eq] at h
    obtain ⟨-, h⟩ := h
    rcases h with (((h | ⟨h, -⟩) | ⟨h, -⟩) | ⟨h, -⟩) | ⟨h1, h2⟩
    · left; rw [h]; decide
    · left; rw [h]; decide
    · left; rw [h]; decide
    · left; rw [h]; decide
    · exact Or.inr ⟨l, rfl, h1, h2⟩

/-- A refresh keeps every bucket duplicate-free, provided the previous
bucket state was duplicate-free, the live models have distinct ids, and
the CRM data is sane (no built-in collision, every truthy lead slug
covered by a non-default stage, so that every push target is
re-initialized). -/
lemma bucketsNodupB_refreshBuckets (e : Engine)
    (hnd : chatIdsNodup e.liveChatModels) (hdisj : LeadSlugsDisjoint e.leads)
    (hcov : LeadsCovered e.stages e.leads) (hB : bucketsNodupB e.buckets) :
    bucketsNodupB (refreshBuckets e).buckets := by
  rw [refreshBuckets]
  by_cases hemp : e.liveChatModels.isEmpty = true
  · rw [if_pos hemp]
    exact hB
  · rw [if_neg hemp]
    show bucketsNodupB ((sortChats e.liveChatModels).foldl (categorizeChat e.leads)
      (reinitBuckets e.buckets e.stages))
    apply bucketsNodupB_foldl_categorize e.leads _ _ hdisj
      (chatIdsNodup_sortChats _ hnd)
    · intro s arr harr
      rw [reinitBuckets_apply] at harr
      by_cases h : s ∈ nonDefaultSlugs e.stages ∨ s ∈ refreshedBuiltins
      · rw [if_pos h] at harr
        have h2 : ([] : List Chat) = arr := by injection harr
        rw [← h2]
        exact List.nodup_nil
      · rw [if_neg h] at harr
        exact hB s arr harr
    · intro s hex
      obtain ⟨c0, hc0, hcs⟩ := hex
      rw [reinitBuckets_apply]
      rcases chatInSlug_target e.leads c0 s hcs with h | ⟨l, hl, hne0, hsl⟩
      · rw [if_pos (Or.inr h)]
        exact Or.inr rfl
      · rw [if_pos (Or.inl (hsl ▸ hcov c0.id l hl hne0))]
        exact Or.inr rfl

/-- `addToBucket` never breaks per-bucket uniqueness: it refuses to
push when an entry with the same serialized id is already present, and
the live map hands it the model stored under the id it pushes. -/
lemma bucketsNodupB_addToBucket (map : String → Option Chat) (b : Buckets)
    (cid slug : String) (hmap : mapConsistent map) (hB : bucketsNodupB b) :
    bucketsNodupB (addToBucket map b cid slug) := by
  unfold addToBucket
  split
  · exact hB
  · rename_i arr harr
    cases hm : map cid with
    | none => exact hB
    | some ch =>
      show bucketsNodupB (if ch.f.archive = true then b
        else if (arr.any fun c => c.id == cid) = true then b
        else bucketSet b slug (ch :: arr))
      by_cases harch : ch.f.archive = true
      · rw [if_pos harch]
        exact hB
      · rw [if_neg harch]
        by_cases hany : (arr.any fun c => c.id == cid) = true
        · rw [if_pos hany]
          exact hB
        · rw [if_neg hany]
          apply bucketsNodupB_bucketSet b slug _ hB
          simp only [List.map_cons, List.nodup_cons]
          refine ⟨?_, hB slug arr harr⟩
          intro hmem
          apply hany
          rw [List.any_eq_true]
          rw [List.mem_map] at hmem
          obtain ⟨c0, hc0, hc0id⟩ := hmem
          exact ⟨c0, hc0, by rw [beq_iff_eq, hc0id, hmap cid ch hm]⟩

lemma addToBucket_apply_ne (map : String → Option Chat) (b : Buckets)
    (cid slug s : String) (h : s ≠ slug) :
    (addToBucket map b cid slug) s = b s := by
  unfold addToBucket
  split
  · cases b slug <;> rfl
  · rename_i ch hm
    cases hb2 : b slug with
    | none => rfl
    | some arr =>
      show (if ch.f.archive = true then b
        else if (arr.any fun c => c.id == cid) = true then b
        else bucketSet b slug (ch :: arr)) s = b s
      by_cases harch : ch.f.archive = true
      · rw [if_pos harch]
      · rw [if_neg harch]
        by_cases hany : (arr.any fun c => c.id == cid) = true
        · rw [if_pos hany]
        · rw [if_neg hany]
          show (if s = slug then some (ch :: arr) else b s) = b s
          rw [if_neg h]

/-- `removeFromBucket` only filters bucket arrays, so per-bucket
uniqueness survives it (single-bucket and all-buckets form alike). -/
lemma bucketsNodupB_removeFromBucket (b : Buckets) (cid : String) (os : Option String)
    (hB : bucketsNodupB b) : bucketsNodupB (removeFromBucket b cid os) := by
  cases os with
  | some slug =>
    have hred : removeFromBucket b cid (some slug)
        = (match b slug with
           | some arr => bucketSet b slug (arr.filter (fun c => c.id != cid))
           | none => b) := rfl
    rw [hred]
    cases hb : b slug with
    | none => exact hB
    | some arr =>
      apply bucketsNodupB_bucketSet b slug _ hB
      exact List.Nodup.sublist (List.Sublist.map Chat.id (List.filter_sublist arr))
        (hB slug arr hb)
  | none =>
    intro s arr harr
    have harr2 : (b s).map (List.filter (fun c => c.id != cid)) = some arr := harr
    cases hb : b s with
    | none =>
      rw [hb] at harr2
      exact absurd harr2 (by simp)
    | some arr0 =>
      rw [hb] at harr2
      have h2 : arr0.filter (fun c => c.id != cid) = arr := by injection harr2
      rw [← h2]
      exact List.Nodup.sublist (List.Sublist.map Chat.id (List.filter_sublist arr0))
        (hB s arr0 hb)

lemma removeFromBucket_some_apply_ne (b : Buckets) (cid slug s : String)
    (h : s ≠ slug) : (removeFromBucket b cid (some slug)) s = b s := by
  have hred : removeFromBucket b cid (some slug)
      = (match b slug with
         | some arr => bucketSet b slug (arr.filter (fun c => c.id != cid))
         | none => b) := rfl
  rw [hred]
  cases hb : b slug with
  | none => rfl
  | some arr =>
    show (if s = slug then some (arr.filter (fun c => c.id != cid)) else b s) = b s
    rw [if_neg h]

/-- In-place field mutation keeps bucket ids unchanged, hence keeps
per-bucket uniqueness. -/
lemma bucketsNodupB_mutateChat (e : Engine) (cid : String) (nf : ChatFields)
    (hB : bucketsNodupB e.buckets) : bucketsNodupB (mutateChat e cid nf).buckets := by
  intro s arr harr
  have harr2 : (e.buckets s).map (List.map (setFields cid nf)) = some arr := harr
  cases hb : e.buckets s with
  | none =>
    rw [hb] at harr2
    exact absurd harr2 (by simp)
  | some arr0 =>
    rw [hb] at harr2
    have h2 : arr0.map (setFields cid nf) = arr := by injection harr2
    rw [← h2]
    have h0 := hB s arr0 hb
    simpa [List.map_map, Function.comp_def, setFields_id] using h0

lemma mapConsistent_mkChatMap_aux (chats : List Chat) (m : String → Option Chat)
    (hm : mapConsistent m) :
    mapConsistent (chats.foldl (fun m c => fun s => if s = c.id then some c else m s) m) := by
  induction chats generalizing m with
  | nil => exact hm
  | cons c rest ih =>
    rw [List.foldl_cons]
    apply ih
    intro s ch hch
    have hch2 : (if s = c.id then some c else m s) = some ch := hch
    by_cases hs : s = c.id
    · rw [if_pos hs] at hch2
      cases hch2
      exact hs.symm
    · rw [if_neg hs] at hch2
      exact hm s ch hch2

lemma mapConsistent_mkChatMap (chats : List Chat) : mapConsistent (mkChatMap chats) := by
  apply mapConsistent_mkChatMap_aux
  intro s ch hch
  exact absurd hch (by simp)

lemma mapConsistent_updateMap (e : Engine) (c : Chat)
    (h : mapConsistent e.liveChatMap) : mapConsistent (updateMap e c) := by
  intro s ch hch
  have hch2 : (if s = c.id then some c else e.liveChatMap s) = some ch := hch
  by_cases hs : s = c.id
  · rw [if_pos hs] at hch2
    cases hch2
    exact hs.symm
  · rw [if_neg hs] at hch2
    exact h s ch hch2

lemma mapConsistent_mutateChat (e : Engine) (cid : String) (nf : ChatFields)
    (h : mapConsistent e.liveChatMap) : mapConsistent (mutateChat e cid nf).liveChatMap := by
  intro s ch hch
  have hch2 : (e.liveChatMap s).map (setFields cid nf) = some ch := hch
  cases hm : e.liveChatMap s with
  | none =>
    rw [hm] at hch2
    exact absurd hch2 (by simp)
  | some ch0 =>
    rw [hm] at hch2
    have h2 : setFields cid nf ch0 = ch := by injection hch2
    rw [← h2, setFields_id]
    exact h s ch0 hm

/-- The three in-place repairs of `onChatChanged` preserve per-bucket
uniqueness (they are made of `addToBucket` / `removeFromBucket`). -/
lemma bucketsNodupB_repairUnread (map : String → Option Chat) (b : Buckets) (c : Chat)
    (hmap : mapConsistent map) (hB : bucketsNodupB b) :
    bucketsNodupB (repairUnread map b c) := by
  unfold repairUnread
  by_cases hu : isUnread c = true
  · rw [if_pos hu]
    exact bucketsNodupB_addToBucket map b c.id _ hmap hB
  · rw [if_neg hu]
    exact bucketsNodupB_removeFromBucket b c.id _ hB

lemma bucketsNodupB_repairGroups (map : String → Option Chat) (b : Buckets) (c : Chat)
    (hmap : mapConsistent map) (hB : bucketsNodupB b) :
    bucketsNodupB (repairGroups map b c) := by
  unfold repairGroups
  by_cases hg : c.f.isGroup = true
  · rw [if_pos hg]
    exact bucketsNodupB_addToBucket map b c.id _ hmap hB
  · rw [if_neg hg]
    exact hB

lemma bucketsNodupB_repairNeedsReply (map : String → Option Chat) (b : Buckets) (c : Chat)
    (hmap : mapConsistent map) (hB : bucketsNodupB b) :
    bucketsNodupB (repairNeedsReply map b c) := by
  unfold repairNeedsReply
  by_cases hr : needsReply c = true
  · rw [if_pos hr]
    exact bucketsNodupB_addToBucket map b c.id _ hmap hB
  · rw [if_neg hr]
    exact bucketsNodupB_removeFromBucket b c.id _ hB

lemma repairUnread_apply_ne (map : String → Option Chat) (b : Buckets) (c : Chat)
    (s : String) (h : s ≠ "unread-chats") : (repairUnread map b c) s = b s := by
  unfold repairUnread
  by_cases hu : isUnread c = true
  · rw [if_pos hu]
    exact addToBucket_apply_ne map b c.id _ s h
  · rw [if_neg hu]
    exact removeFromBucket_some_apply_ne b c.id _ s h

lemma repairGroups_apply_ne (map : String → Option Chat) (b : Buckets) (c : Chat)
    (s : String) (h : s ≠ "groups") : (repairGroups map b c) s = b s := by
  unfold repairGroups
  by_cases hg : c.f.isGroup = true
  · rw [if_pos hg]
    exact addToBucket_apply_ne map b c.id _ s h
  · rw [if_neg hg]

lemma repairNeedsReply_apply_ne (map : String → Option Chat) (b : Buckets) (c : Chat)
    (s : String) (h : s ≠ "needs-reply") : (repairNeedsReply map b c) s = b s := by
  unfold repairNeedsReply
  by_cases hr : needsReply c = true
  · rw [if_pos hr]
    exact addToBucket_apply_ne map b c.id _ s h
  · rw [if_neg hr]
    exact removeFromBucket_some_apply_ne b c.id _ s h

/-! ### The bucket-operation transition system -/

/-- Module state before any bucket operation has run: no bucket object,
no CRM data, no live models. -/
def Engine.init : Engine :=
  { buckets := fun _ => none
    stages := []
    leads := fun _ => none
    liveChatModels := []
    liveChatMap := fun _ => none }

/-- One bucket-engine operation as the source invokes it: a full
rebuild (`buildBuckets`; the live WPP chat store is keyed by serialized
id, so the fetched model list has distinct ids), a periodic refresh
(`refreshBuckets`), a chat-event repair (`onChatChanged`), a direct
`addToBucket` call (the source only ever passes the three repair
slugs `unread-chats`, `groups`, `needs-reply`), a `removeFromBucket`
call, and an in-place mutation of a live model's fields. -/
inductive Step : Engine → Engine → Prop
  | build (e : Engine) (stages : List Stage) (leads : String → Option Lead)
      (chats : List Chat) (hnd : chatIdsNodup chats) :
      Step e (buildBuckets stages leads chats)
  | refresh (e : Engine) : Step e (refreshBuckets e)
  | chatChanged (e : Engine) (c : Chat) : Step e (onChatChanged e c)
  | add (e : Engine) (cid slug : String)
      (hslug : slug = "unread-chats" ∨ slug = "groups" ∨ slug = "needs-reply") :
      Step e { e with buckets := addToBucket e.liveChatMap e.buckets cid slug }
  | remove (e : Engine) (cid : String) (os : Option String) :
      Step e { e with buckets := removeFromBucket e.buckets cid os }
  | mutate (e : Engine) (cid : String) (nf : ChatFields) :
      Step e (mutateChat e cid nf)

/-- `Step`, with the CRM-data sanity conditions on what a rebuild
installs: no lead stage slug collides with a reserved built-in bucket
slug, and every truthy lead slug names a non-default stage of the
fetched stage list. -/
inductive SafeStep : Engine → Engine → Prop
  | build (e : Engine) (stages : List Stage) (leads : String → Option Lead)
      (chats : List Chat) (hnd : chatIdsNodup chats)
      (hdisj : LeadSlugsDisjoint leads) (hcov : LeadsCovered stages leads) :
      SafeStep e (buildBuckets stages leads chats)
  | refresh (e : Engine) : SafeStep e (refreshBuckets e)
  | chatChanged (e : Engine) (c : Chat) : SafeStep e (onChatChanged e c)
  | add (e : Engine) (cid slug : String)
      (hslug : slug = "unread-chats" ∨ slug = "groups" ∨ slug = "needs-reply") :
      SafeStep e { e with buckets := addToBucket e.liveChatMap e.buckets cid slug }
  | remove (e : Engine) (cid : String) (os : Option String) :
      SafeStep e { e with buckets := removeFromBucket e.buckets cid os }
  | mutate (e : Engine) (cid : String) (nf : ChatFields) :
      SafeStep e (mutateChat e cid nf)

def Reachable (e : Engine) : Prop := Relation.ReflTransGen Step Engine.init e

def ReachableSafe (e : Engine) : Prop := Relation.ReflTransGen SafeStep Engine.init e

/-- The state invariant maintained by the safe transition system:
duplicate-free buckets, distinct live model ids, an id-consistent live
map, sane CRM data, and an empty (or absent) pending-reminders
bucket. -/
def EngineInv (e : Engine) : Prop :=
  bucketsNodupB e.buckets ∧ chatIdsNodup e.liveChatModels ∧
    mapConsistent e.liveChatMap ∧ LeadSlugsDisjoint e.leads ∧
    LeadsCovered e.stages e.leads ∧ (e.buckets "pending-reminders").getD [] = []

lemma refreshBuckets_stages (e : Engine) : (refreshBuckets e).stages = e.stages := by
  unfold refreshBuckets
  split <;> rfl

lemma refreshBuckets_leads (e : Engine) : (refreshBuckets e).leads = e.leads := by
  unfold refreshBuckets
  split <;> rfl

lemma refreshBuckets_liveChatMap (e : Engine) :
    (refreshBuckets e).liveChatMap = e.liveChatMap := by
  unfold refreshBuckets
  split <;> rfl

lemma chatIdsNodup_refreshBuckets (e : Engine) (h : chatIdsNodup e.liveChatModels) :
    chatIdsNodup (refreshBuckets e).liveChatModels := by
  unfold refreshBuckets
  split
  · exact h
  · exact chatIdsNodup_sortChats _ h

/-- Under `LeadSlugsDisjoint`, the categorization loop never touches
the pending-reminders bucket. -/
lemma pending_foldl_categorize (leads : String → Option Lead) (chats : List Chat)
    (b : Buckets) (hdisj : LeadSlugsDisjoint leads)
    (hp : (b "pending-reminders").getD [] = []) :
    ((chats.foldl (categorizeChat leads) b) "pending-reminders").getD [] = [] := by
  rw [foldl_categorize_apply leads chats b _ hdisj]
  have hf : chats.filter (fun c => chatInSlugB leads c "pending-reminders") = [] := by
    rw [List.filter_eq_nil_iff]
    intro c hc
    rw [chatInSlugB_pending leads hdisj c]
    simp
  rw [hf]
  simpa using hp

lemma pending_buildBuckets (stages : List Stage) (leads : String → Option Lead)
    (chats : List Chat) (hdisj : LeadSlugsDisjoint leads) :
    ((buildBuckets stages leads chats).buckets "pending-reminders").getD [] = [] := by
  show (((sortChats chats).foldl (categorizeChat leads)
    (initBuckets stages)) "pending-reminders").getD [] = []
  apply pending_foldl_categorize leads _ _ hdisj
  rw [initBuckets_apply, if_pos (Or.inr (by decide))]
  rfl

lemma pending_refreshBuckets (e : Engine) (hdisj : LeadSlugsDisjoint e.leads)
    (hp : (e.buckets "pending-reminders").getD [] = []) :
    ((refreshBuckets e).buckets "pending-reminders").getD [] = [] := by
  unfold refreshBuckets
  split
  · exact hp
  · show (((sortChats e.liveChatModels).foldl (categorizeChat e.leads)
      (reinitBuckets e.buckets e.stages)) "pending-reminders").getD [] = []
    apply pending_foldl_categorize e.leads _ _ hdisj
    rw [reinitBuckets_apply]
    by_cases h : ("pending-reminders" : String) ∈ nonDefaultSlugs e.stages ∨
        ("pending-reminders" : String) ∈ refreshedBuiltins
    · rw [if_pos h]
      rfl
    · rw [if_neg h]
      exact hp

lemma pending_onChatChanged (e : Engine) (c : Chat)
    (hp : (e.buckets "pending-reminders").getD [] = []) :
    ((onChatChanged e c).buckets "pending-reminders").getD [] = [] := by
  rw [onChatChanged_buckets, repairNeedsReply_apply_ne _ _ _ _ (by decide),
    repairGroups_apply_ne _ _ _ _ (by decide), repairUnread_apply_ne _ _ _ _ (by decide)]
  exact hp

lemma pending_removeFromBucket (b : Buckets) (cid : String) (os : Option String)
    (hp : (b "pending-reminders").getD [] = []) :
    ((removeFromBucket b cid os) "pending-reminders").getD [] = [] := by
  cases os with
  | some slug =>
    by_cases hs : ("pending-reminders" : String) = slug
    · subst hs
      have hred : removeFromBucket b cid (some "pending-reminders")
          = (match b "pending-reminders" with
             | some arr => bucketSet b "pending-reminders" (arr.filter (fun c => c.id != cid))
             | none => b) := rfl
      rw [hred]
      cases hb : b "pending-reminders" with
      | none => exact hp
      | some arr =>
        rw [hb] at hp
        have harr : arr = [] := hp
        show ((if ("pending-reminders" : String) = "pending-reminders"
          then some (arr.filter (fun c => c.id != cid))
          else b "pending-reminders").getD [] = [])
        rw [if_pos rfl, harr]
        rfl
    · rw [removeFromBucket_some_apply_ne b cid slug _ hs]
      exact hp
  | none =>
    show ((b "pending-reminders").map (List.filter (fun c => c.id != cid))).getD [] = []
    cases hb : b "pending-reminders" with
    | none => rfl
    | some arr =>
      rw [hb] at hp
      have harr : arr = [] := hp
      rw [harr]
      rfl

lemma pending_mutateChat (e : Engine) (cid : String) (nf : ChatFields)
    (hp : (e.buckets "pending-reminders").getD [] = []) :
    ((mutateChat e cid nf).buckets "pending-reminders").getD [] = [] := by
  show ((e.buckets "pending-reminders").map (List.map (setFields cid nf))).getD [] = []
  cases hb : e.buckets "pending-reminders" with
  | none => rfl
  | some arr =>
    rw [hb] at hp
    have harr : arr = [] := hp
    rw [harr]
    rfl

lemma engineInv_init : EngineInv Engine.init := by
  refine ⟨?_, ?_, ?_, ?_, ?_, rfl⟩
  · intro s arr harr
    exact Option.noConfusion harr
  · show (([] : List Chat).map Chat.id).Nodup
    exact List.nodup_nil
  · intro s ch hch
    exact Option.noConfusion hch
  · intro cid l hl
    exact Option.noConfusion hl
  · intro cid l hl
    exact Option.noConfusion hl

lemma engineInv_step (e e2 : Engine) (h : SafeStep e e2) (hI : EngineInv e) :
    EngineInv e2 := by
  obtain ⟨hB, hnd, hmap, hdisj, hcov, hp⟩ := hI
  cases h with
  | build stages leads chats hnd2 hdisj2 hcov2 =>
    exact ⟨bucketsNodupB_buildBuckets stages leads chats hnd2 hdisj2,
      chatIdsNodup_sortChats chats hnd2,
      mapConsistent_mkChatMap (sortChats chats),
      hdisj2, hcov2,
      pending_buildBuckets stages leads chats hdisj2⟩
  | refresh =>
    refine ⟨bucketsNodupB_refreshBuckets e hnd hdisj hcov hB,
      chatIdsNodup_refreshBuckets e hnd, ?_, ?_, ?_,
      pending_refreshBuckets e hdisj hp⟩
    · rw [refreshBuckets_liveChatMap]
      exact hmap
    · rw [refreshBuckets_leads]
      exact hdisj
    · rw [refreshBuckets_leads, refreshBuckets_stages]
      exact hcov
  | chatChanged c =>
    refine ⟨?_, hnd, mapConsistent_updateMap e c hmap, hdisj, hcov,
      pending_onChatChanged e c hp⟩
    rw [onChatChanged_buckets]
    exact bucketsNodupB_repairNeedsReply _ _ _ (mapConsistent_updateMap e c hmap)
      (bucketsNodupB_repairGroups _ _ _ (mapConsistent_updateMap e c hmap)
        (bucketsNodupB_repairUnread _ _ _ (mapConsistent_updateMap e c hmap) hB))
  | add cid slug hslug =>
    refine ⟨bucketsNodupB_addToBucket e.liveChatMap e.buckets cid slug hmap hB,
      hnd, hmap, hdisj, hcov, ?_⟩
    have hne : ("pending-reminders" : String) ≠ slug := by
      rcases hslug with h0 | h0 | h0 <;> rw [h0] <;> decide
    show ((addToBucket e.liveChatMap e.buckets cid slug) "pending-reminders").getD [] = []
    rw [addToBucket_apply_ne e.liveChatMap e.buckets cid slug _ hne]
    exact hp
  | remove cid os =>
    exact ⟨bucketsNodupB_removeFromBucket e.buckets cid os hB, hnd, hmap, hdisj, hcov,
      pending_removeFromBucket e.buckets cid os hp⟩
  | mutate cid nf =>
    exact ⟨bucketsNodupB_mutateChat e cid nf hB,
      chatIdsNodup_map_setFields cid nf e.liveChatModels hnd,
      mapConsistent_mutateChat e cid nf hmap,
      hdisj, hcov, pending_mutateChat e cid nf hp⟩

lemma engineInv_reachableSafe (e : Engine) (h : ReachableSafe e) : EngineInv e := by
  have h2 : Relation.ReflTransGen SafeStep Engine.init e := h
  clear h
  induction h2 with
  | refl => exact engineInv_init
  | tail h1 hstep ih => exact engineInv_step _ _ hstep ih

/-! ### C9 and C10: bucket invariants over reachable states -/

/-- A *default* CRM stage and a lead pointing at it: the configuration
that breaks the per-bucket uniqueness invariant across a refresh. -/
def c9stage : Stage := ⟨"new-lead", true⟩

def c9lead : Lead := ⟨"New Lead", "new-lead", "N", ""⟩

def c9leads : String → Option Lead := fun s => if s = "a9@c.us" then some c9lead else none

def c9chat : Chat := ⟨"a9@c.us", ⟨false, 0, false, false, 1, 0, []⟩⟩

def c9e1 : Engine := buildBuckets [c9stage] c9leads [c9chat]

def c9e2 : Engine := refreshBuckets c9e1

/-- C9: the invariant fails as claimed over the raw operations: a lead
whose slug names a *default* stage makes `buildBuckets` create that
stage's bucket dynamically, and `refreshBuckets` re-initializes only
the four built-ins and the non-default stage buckets, so the refresh
appends the same conversation to the `new-lead` bucket a second
time. -/
theorem C9_counterexample :
    Reachable c9e2 ∧ c9e2.buckets "new-lead" = some [c9chat, c9chat] := by
  constructor
  · show Relation.ReflTransGen Step Engine.init c9e2
    exact Relation.ReflTransGen.tail
      (Relation.ReflTransGen.single
        (Step.build Engine.init [c9stage] c9leads [c9chat]
          (by show (([c9chat] : List Chat).map Chat.id).Nodup; decide)))
      (Step.refresh c9e1)
  · decide

/-- C9 (amended): in every state reachable by the bucket operations —
with rebuilds restricted to CRM data whose lead stage slugs avoid the
five reserved built-in slugs and name only non-default stages of the
fetched stage list — each conversation appears at most once per bucket:
no bucket array contains two entries with the same serialized id. -/
theorem C9_at_most_once_per_bucket (e : Engine) (h : ReachableSafe e)
    (slug : String) (arr : List Chat) (harr : e.buckets slug = some arr) :
    (arr.map Chat.id).Nodup :=
  (engineInv_reachableSafe e h).1 slug arr harr

def c9wchat : Chat := ⟨"w9@c.us", ⟨false, 0, false, false, 1, 0, []⟩⟩

def c9wleads : String → Option Lead := fun _ => none

def c9we : Engine := buildBuckets [] c9wleads [c9wchat]

theorem C9_at_most_once_per_bucket_witness :
    c9we.buckets "all-chats" = some [c9wchat] ∧
      (([c9wchat] : List Chat).map Chat.id).Nodup := by
  refine ⟨by decide, ?_⟩
  refine C9_at_most_once_per_bucket c9we ?_ "all-chats" [c9wchat] (by decide)
  show Relation.ReflTransGen SafeStep Engine.init c9we
  exact Relation.ReflTransGen.single
    (SafeStep.build Engine.init [] c9wleads [c9wchat]
      (by show (([c9wchat] : List Chat).map Chat.id).Nodup; decide)
      (fun cid l hl => absurd hl (by simp [c9wleads]))
      (fun cid l hl => absurd hl (by simp [c9wleads])))

/-- A CRM stage literally named "Pending Reminders" slugifies to the
engine's reserved pending-reminders slug. -/
def c10lead : Lead := ⟨"Pending Reminders", slugify "Pending Reminders", "P", ""⟩

def c10leads : String → Option Lead :=
  fun s => if s = "a10@c.us" then some c10lead else none

def c10chat : Chat := ⟨"a10@c.us", ⟨false, 0, false, false, 1, 0, []⟩⟩

def c10e : Engine := buildBuckets [] c10leads [c10chat]

/-- C10: the bucket is not always empty: `buildBuckets` pushes a chat
into `buckets[lead.stage_slug]` for any truthy slug, so a lead whose
stage slugifies to `pending-reminders` puts its conversation into the
reserved bucket in one reachable step. -/
theorem C10_counterexample :
    Reachable c10e ∧ c10e.buckets "pending-reminders" = some [c10chat] := by
  constructor
  · show Relation.ReflTransGen Step Engine.init c10e
    exact Relation.ReflTransGen.single
      (Step.build Engine.init [] c10leads [c10chat]
        (by show (([c10chat] : List Chat).map Chat.id).Nodup; decide))
  · decide

/-- C10 (amended): provided no lead stage slug collides with a reserved
built-in slug (what `SafeStep` requires of the data a rebuild
installs), the pending-reminders bucket holds no conversation in any
reachable state: both rebuild paths leave it empty, and no other
operation inserts into it. -/
theorem C10_pending_reminders_empty (e : Engine) (h : ReachableSafe e) :
    (e.buckets "pending-reminders").getD [] = [] :=
  (engineInv_reachableSafe e h).2.2.2.2.2

def c10wchat : Chat := ⟨"w10@c.us", ⟨false, 2, true, false, 4, 0, []⟩⟩

def c10wleads : String → Option Lead := fun _ => none

def c10we : Engine := buildBuckets [] c10wleads [c10wchat]

theorem C10_pending_reminders_empty_witness :
    c10we.buckets "pending-reminders" = some [] ∧
      (c10we.buckets "pending-reminders").getD [] = [] := by
  refine ⟨by decide, ?_⟩
  refine C10_pending_reminders_empty c10we ?_
  show Relation.ReflTransGen SafeStep Engine.init c10we
  exact Relation.ReflTransGen.single
    (SafeStep.build Engine.init [] c10wleads [c10wchat]
      (by show (([c10wchat] : List Chat).map Chat.id).Nodup; decide)
      (fun cid l hl => absurd hl (by simp [c10wleads]))
      (fun cid l hl => absurd hl (by simp [c10wleads])))

/-! ### Content-script phone index (`normalizePhone`, `getStageForPhone`)

`phoneStageMap` is a JS `Map` from normalized phone strings to lead
data; a `Map` preserves insertion order and has unique keys, so it is
modelled as an association list (uniqueness of keys is a hypothesis
where it matters). -/

/-- `normalizePhone(phone)` (content script): remove every character
that is not an ASCII digit, then remove leading zeros. -/
def normalizePhone (phone : String) : String :=
  String.mk ((phone.toList.filter Char.isDigit).dropWhile (· == '0'))

/-- The lead data stored as a `phoneStageMap` value by the content
script's `loadAllLeads`. -/
structure LeadData where
  stage : String
  leadId : String
  name : String
  waChatId : Option String
deriving DecidableEq

/-- JS `Map.prototype.get` / `has` over the association-list model. -/
def mapGet {α : Type} (m : List (String × α)) (k : String) : Option α :=
  (m.find? (fun e => e.1 == k)).map (fun e => e.2)

/-- JS `String.prototype.endsWith(suffix)`: suffix test on the
character sequence (written out on lists so that proofs and concrete
evaluation go through the kernel directly). -/
def jsEndsWith (s suffix : String) : Bool :=
  List.isSuffixOf suffix.toList s.toList

/-- JS `Map.prototype.set`: overwrite in place (preserving insertion
order) if the key exists, otherwise append. -/
def mapSet {α : Type} (m : List (String × α)) (k : String) (v : α) : List (String × α) :=
  if m.any (fun e => e.1 == k) then
    m.map (fun e => if e.1 == k then (k, v) else e)
  else m ++ [(k, v)]

/-- `getStageForPhone(rawPhone)` (content script): normalize; empty →
null; exact key match first; otherwise, when the normalized number has
at least 10 digits, return the first entry (in insertion order) whose
stored key ends with the last 10 digits (`slice(-10)`). -/
def getStageForPhone (phoneStageMap : List (String × LeadData)) (rawPhone : String) :
    Option LeadData :=
  let normalized := normalizePhone rawPhone
  if normalized = "" then none
  else
    match mapGet phoneStageMap normalized with
    | some d => some d
    | none =>
      let last10 := String.mk (normalized.toList.drop (normalized.length - 10))
      if 10 ≤ last10.length then
        (phoneStageMap.find? (fun e => jsEndsWith e.1 last10)).map (fun e => e.2)
      else none

/-- The normalization the specification describes, word for word:
strip everything except digits and a leading plus sign, then strip
leading zeros (of the digit part).  Used only to exhibit the divergence
from the source's `normalizePhone`. -/
def normalizePhoneSpec (phone : String) : String :=
  let digits := (phone.toList.filter Char.isDigit).dropWhile (· == '0')
  match phone.toList with
  | '+' :: _ => String.mk ('+' :: digits)
  | _ => String.mk digits

/-! ### C4: phone normalization and phone-based lead lookup -/

/-- C4 (counterexample).  The claim says normalization "strips
everything but digits and a leading '+'", i.e. that a leading plus sign
survives.  The source's `normalizePhone` deletes every non-digit, the
plus sign included: on the raw phone "+91 98765 43210" the claimed
normalization yields "+919876543210" while the code yields
"919876543210". -/
theorem C4_plus_sign_counterexample :
    normalizePhoneSpec "+91 98765 43210" = "+919876543210" ∧
    normalizePhone "+91 98765 43210" = "919876543210" ∧
    normalizePhoneSpec "+91 98765 43210" ≠ normalizePhone "+91 98765 43210" := by
  refine ⟨by decide, by decide, by decide⟩

/-- C4 (amended).  Normalization keeps exactly the digits of the raw
string (a leading '+' is dropped like every other non-digit) and strips
leading zeros; lookup returns the exact normalized-key match when one
exists, otherwise — only when the normalized query has at least 10
digits — the first record in insertion order whose stored key ends with
the query's last 10 digits, and null when neither applies. -/
theorem C4_phone_lookup (m : List (String × LeadData)) (raw : String) :
    (∀ c ∈ (normalizePhone raw).toList, c.isDigit) ∧
    (∀ c, (normalizePhone raw).toList.head? = some c → c ≠ '0') ∧
    (normalizePhone raw = "" → getStageForPhone m raw = none) ∧
    (normalizePhone raw ≠ "" → ∀ d, mapGet m (normalizePhone raw) = some d →
      getStageForPhone m raw = some d) ∧
    (mapGet m (normalizePhone raw) = none → 10 ≤ (normalizePhone raw).length →
      getStageForPhone m raw =
        (m.find? (fun e => jsEndsWith e.1 (String.mk
          ((normalizePhone raw).toList.drop ((normalizePhone raw).length - 10))))).map
          (fun e => e.2)) ∧
    (mapGet m (normalizePhone raw) = none → (normalizePhone raw).length < 10 →
      getStageForPhone m raw = none) := by
  have htl : (normalizePhone raw).toList
      = (raw.toList.filter Char.isDigit).dropWhile (· == '0') := rfl
  have hlen : (normalizePhone raw).length = (normalizePhone raw).toList.length := rfl
  have hlast : ∀ k : Nat,
      (String.mk ((normalizePhone raw).toList.drop k)).length
        = (normalizePhone raw).toList.length - k := by
    intro k
    show ((normalizePhone raw).toList.drop k).length = _
    exact List.length_drop k _
  refine ⟨?_, ?_, ?_, ?_, ?_, ?_⟩
  · intro c hc
    rw [htl] at hc
    have h2 : c ∈ raw.toList.filter Char.isDigit :=
      (List.dropWhile_sublist _).subset hc
    exact (List.mem_filter.mp h2).2
  · intro c hc
    rw [htl] at hc
    rw [← List.find?_not_eq_head?_dropWhile] at hc
    have h3 := List.find?_some hc
    simpa using h3
  · intro h
    simp [getStageForPhone, h]
  · intro hne d hd
    simp [getStageForPhone, hne, hd]
  · intro hn h10
    have hne : normalizePhone raw ≠ "" := by
      intro h
      rw [h] at h10
      simp at h10
    have h10l : 10 ≤ (String.mk ((normalizePhone raw).toList.drop
        ((normalizePhone raw).length - 10))).length := by
      rw [hlast]
      rw [hlen] at h10
      omega
    rw [hlen] at h10
    simp [getStageForPhone, hne, hn, h10l]
    intro hcontra
    exact absurd hcontra (by omega)
  · intro hn hlt
    by_cases hne : normalizePhone raw = ""
    · simp [getStageForPhone, hne]
    · have h10l : ¬ 10 ≤ (String.mk ((normalizePhone raw).toList.drop
          ((normalizePhone raw).length - 10))).length := by
        rw [hlast]
        rw [hlen] at hlt
        omega
      rw [hlen] at hlt
      simp [getStageForPhone, hne, hn, h10l]
      intro hcontra
      exact absurd hcontra (by omega)

/-- Concrete lead map for the C4 witness: two stored leads whose
normalized phones are "919876543210" and "15551234567". -/
def c4map : List (String × LeadData) :=
  [("919876543210", ⟨"WON", "L1", "Asha", none⟩),
   ("15551234567", ⟨"LOST", "L2", "Bo", none⟩)]

/-- C4 (witness): querying "98765 43210" (10 digits, no exact match)
falls back to the last-10-digit suffix scan and returns the first
stored record "919876543210". -/
theorem C4_phone_lookup_witness :
    getStageForPhone c4map "98765 43210" = some ⟨"WON", "L1", "Asha", none⟩ := by
  have h := (C4_phone_lookup c4map "98765 43210").2.2.2.2.1 (by decide) (by decide)
  rw [h]
  decide

/-! ### Lead pagination (`loadAllLeads`, MAIN-world script)

The paged fetch is modelled by a feed `Nat → Except Unit LeadsPage`
(page number → server error or page payload); the `await`ed promise
rejection caught by the source's `try`/`catch` is the `error` case.
The loop `while (hasMore)` is given fuel; every claim is about runs
whose fuel exceeds the number of pages actually fetched. -/

/-- `LEAD_PAGE_SIZE` (the page size the script passes on every
fetch). -/
def LEAD_PAGE_SIZE : Nat := 500

/-- One lead item of an API page, restricted to the fields
`loadAllLeads` reads: `id`, `stage`, `wa_chat_id` (empty string for a
falsy value), `business.mobile` and `business.name` (likewise). -/
structure ApiLead where
  leadId : String
  stage : String
  wa_chat_id : String
  mobile : String
  bizName : String
deriving DecidableEq

structure LeadsPage where
  items : List ApiLead
  total_pages : Nat
deriving DecidableEq

abbrev Feed := Nat → Except Unit LeadsPage

/-- The loader's state: the `leads` map keyed by chat id, the
`totalLoaded` / `orphanedCount` counters, and the log of issued
fetches as (page, pageSize) pairs. -/
structure LoadState where
  leads : String → Option Lead
  loaded : Nat
  orphaned : Nat
  pagesFetched : List (Nat × Nat)

/-- Chat-id derivation for one lead item: `wa_chat_id || null`,
falling back to the digit-stripped `business.mobile` plus `"@c.us"`
when it has at least 7 digits. -/
def leadChatId (l : ApiLead) : Option String :=
  if l.wa_chat_id ≠ "" then some l.wa_chat_id
  else
    if 7 ≤ (String.mk (l.mobile.toList.filter Char.isDigit)).length
    then some (String.mk (l.mobile.toList.filter Char.isDigit) ++ "@c.us")
    else none

/-- The flat lead record stored under `leads[chatId]` (restricted to
the fields the bucket engine reads). -/
def mkLeadRecord (l : ApiLead) : Lead :=
  { stage := l.stage, stage_slug := slugify l.stage, name := l.bizName, phone := l.mobile }

/-- The per-item body of the page loop: store the record under the
derived chat id and count it, or count it as orphaned. -/
def ingestItem (st : LoadState) (l : ApiLead) : LoadState :=
  match leadChatId l with
  | some cid =>
    { st with
      leads := fun s => if s = cid then some (mkLeadRecord l) else st.leads s
      loaded := st.loaded + 1 }
  | none => { st with orphaned := st.orphaned + 1 }

/-- Append one issued fetch (page, pageSize) to the log. -/
def logFetch (st : LoadState) (page : Nat) : LoadState :=
  { st with pagesFetched := st.pagesFetched ++ [(page, LEAD_PAGE_SIZE)] }

/-- The `while (hasMore)` loop of `loadAllLeads`: fetch the current
page (all fetches use `LEAD_PAGE_SIZE`), stop keeping the partial
state on a fetch error (the `catch`) or on an empty page, ingest the
items, and continue with the next page unless
`page >= (response.total_pages || 1)`. -/
def loadPages (f : Feed) : Nat → Nat → LoadState → LoadState
  | 0, _, st => st
  | fuel + 1, page, st =>
    match f page with
    | Except.error _ => logFetch st page
    | Except.ok resp =>
      if resp.items.length = 0 then logFetch st page
      else
        if (if resp.total_pages = 0 then 1 else resp.total_pages) ≤ page
        then resp.items.foldl ingestItem (logFetch st page)
        else loadPages f fuel (page + 1) (resp.items.foldl ingestItem (logFetch st page))

/-- `loadAllLeads(orgId)` (MAIN-world script): reset the map and the
counters, then run the page loop from page 1. -/
def loadAllLeads (f : Feed) (fuel : Nat) : LoadState :=
  loadPages f fuel 1 { leads := fun _ => none, loaded := 0, orphaned := 0, pagesFetched := [] }

lemma ingestItem_pagesFetched (st : LoadState) (l : ApiLead) :
    (ingestItem st l).pagesFetched = st.pagesFetched := by
  unfold ingestItem
  cases leadChatId l <;> rfl

lemma foldl_ingestItem_pagesFetched (items : List ApiLead) (st : LoadState) :
    (items.foldl ingestItem st).pagesFetched = st.pagesFetched := by
  induction items generalizing st with
  | nil => rfl
  | cons l rest ih => rw [List.foldl_cons, ih, ingestItem_pagesFetched]

lemma logFetch_pagesFetched (st : LoadState) (page : Nat) :
    (logFetch st page).pagesFetched = st.pagesFetched ++ [(page, LEAD_PAGE_SIZE)] := rfl

/-- The fetch log of a loop run: the log grows by fetches at
`LEAD_PAGE_SIZE` for pages from the start page on, and a page `q + 1`
past the start page is only ever fetched after page `q` came back ok,
non-empty, and strictly below the reported page total. -/
lemma loadPages_fetched (f : Feed) (fuel : Nat) :
    ∀ page st, ∃ L,
      (loadPages f fuel page st).pagesFetched = st.pagesFetched ++ L ∧
      (∀ q n, (q, n) ∈ L → n = LEAD_PAGE_SIZE ∧ page ≤ q) ∧
      (∀ q, page ≤ q → (q + 1, LEAD_PAGE_SIZE) ∈ L →
        ∃ resp, f q = Except.ok resp ∧ resp.items ≠ [] ∧
          q < (if resp.total_pages = 0 then 1 else resp.total_pages)) := by
  induction fuel with
  | zero =>
    intro page st
    exact ⟨[], by simp [loadPages], by simp, by simp⟩
  | succ fuel ih =>
    intro page st
    cases hf : f page with
    | error ε =>
      refine ⟨[(page, LEAD_PAGE_SIZE)], ?_, ?_, ?_⟩
      · simp only [loadPages, hf]
        rfl
      · intro q n hqn
        rcases List.mem_singleton.mp hqn with h
        exact ⟨congrArg Prod.snd h, le_of_eq (congrArg Prod.fst h).symm⟩
      · intro q hq hmem
        have h := List.mem_singleton.mp hmem
        have h1 : q + 1 = page := congrArg Prod.fst h
        omega
    | ok resp =>
      by_cases hempty : resp.items.length = 0
      · refine ⟨[(page, LEAD_PAGE_SIZE)], ?_, ?_, ?_⟩
        · simp only [loadPages, hf]
          rw [if_pos hempty]
          rfl
        · intro q n hqn
          rcases List.mem_singleton.mp hqn with h
          exact ⟨congrArg Prod.snd h, le_of_eq (congrArg Prod.fst h).symm⟩
        · intro q hq hmem
          have h := List.mem_singleton.mp hmem
          have h1 : q + 1 = page := congrArg Prod.fst h
          omega
      · by_cases hlast : (if resp.total_pages = 0 then 1 else resp.total_pages) ≤ page
        · refine ⟨[(page, LEAD_PAGE_SIZE)], ?_, ?_, ?_⟩
          · simp only [loadPages, hf]
            rw [if_neg hempty, if_pos hlast, foldl_ingestItem_pagesFetched]
            rfl
          · intro q n hqn
            rcases List.mem_singleton.mp hqn with h
            exact ⟨congrArg Prod.snd h, le_of_eq (congrArg Prod.fst h).symm⟩
          · intro q hq hmem
            have h := List.mem_singleton.mp hmem
            have h1 : q + 1 = page := congrArg Prod.fst h
            omega
        · obtain ⟨L2, hL2, hL2n, hL2c⟩ :=
            ih (page + 1) (resp.items.foldl ingestItem (logFetch st page))
          refine ⟨(page, LEAD_PAGE_SIZE) :: L2, ?_, ?_, ?_⟩
          · simp only [loadPages, hf]
            rw [if_neg hempty, if_neg hlast, hL2, foldl_ingestItem_pagesFetched,
              logFetch_pagesFetched]
            simp
          · intro q n hqn
            rcases List.mem_cons.mp hqn with h | h
            · exact ⟨congrArg Prod.snd h, le_of_eq (congrArg Prod.fst h).symm⟩
            · have h2 := hL2n q n h
              exact ⟨h2.1, by omega⟩
          · intro q hq hmem
            rcases List.mem_cons.mp hmem with h | h
            · have h1 : q + 1 = page := congrArg Prod.fst h
              omega
            · by_cases hqp : q = page
              · subst hqp
                refine ⟨resp, hf, ?_, by omega⟩
                intro h0
                exact hempty (by rw [h0]; rfl)
              · have h2 := (hL2n _ _ h).2
                exact hL2c q (by omega) h

/-- The C5 scenario feed: page 1 carries 500 items, page 2 carries 120
items, `total_pages` is 2 — and later pages would even be non-empty,
so only the stop condition can end the run. -/
def c5item1 : ApiLead := ⟨"L1", "New Lead", "a5@c.us", "", ""⟩

def c5item2 : ApiLead := ⟨"L2", "New Lead", "b5@c.us", "", ""⟩

def c5feed : Feed := fun q =>
  if q = 1 then Except.ok ⟨List.replicate 500 c5item1, 2⟩
  else if q = 2 then Except.ok ⟨List.replicate 120 c5item2, 2⟩
  else Except.ok ⟨List.replicate 500 c5item1, 99⟩

set_option maxRecDepth 4000 in
/-- C5: lead pagination fetches numbered pages, all at the fixed page
size 500, and continues past a page only when that page came back ok,
non-empty, and strictly below the reported `total_pages` (so it
terminates as soon as a page is empty or the page number reaches the
reported total).  In the 500 + 120 / `total_pages = 2` scenario the
run ingests exactly 620 records and issues exactly the two fetches
(1, 500) and (2, 500) — no third fetch. -/
theorem C5_pagination :
    ((loadAllLeads c5feed 10).loaded = 620 ∧
      (loadAllLeads c5feed 10).pagesFetched = [(1, LEAD_PAGE_SIZE), (2, LEAD_PAGE_SIZE)]) ∧
    (∀ (f : Feed) (fuel q : Nat), 1 ≤ q →
      (q + 1, LEAD_PAGE_SIZE) ∈ (loadAllLeads f fuel).pagesFetched →
      ∃ resp, f q = Except.ok resp ∧ resp.items ≠ [] ∧
        q < (if resp.total_pages = 0 then 1 else resp.total_pages)) := by
  constructor
  · exact ⟨by decide, by decide⟩
  · intro f fuel q hq hmem
    obtain ⟨L, hL, hLn, hLc⟩ := loadPages_fetched f fuel 1
      { leads := fun _ => none, loaded := 0, orphaned := 0, pagesFetched := [] }
    have hL2 : (loadAllLeads f fuel).pagesFetched = [] ++ L := hL
    rw [hL2, List.nil_append] at hmem
    exact hLc q hq hmem

set_option maxRecDepth 4000 in
theorem C5_pagination_witness :
    ∃ resp, c5feed 1 = Except.ok resp ∧ resp.items ≠ [] ∧
      1 < (if resp.total_pages = 0 then 1 else resp.total_pages) :=
  C5_pagination.2 c5feed 10 1 (by decide) (by decide)

/-- The error-stop equivalence lemma behind C6: a feed that errors at
page `p` produces, from any start page at or below `p`, exactly the
state a feed that cleanly reports an empty page at `p` produces —
nothing already ingested is discarded and nothing escapes the
`catch`. -/
lemma loadPages_error_eq (f g : Feed) (p tp : Nat)
    (herr : ∃ ε, f p = Except.error ε) (hg : g p = Except.ok ⟨[], tp⟩)
    (hagree : ∀ q, q < p → g q = f q) :
    ∀ fuel page st, page ≤ p → loadPages f fuel page st = loadPages g fuel page st := by
  intro fuel
  induction fuel with
  | zero =>
    intro page st _
    rfl
  | succ fuel ih =>
    intro page st hpage
    by_cases hpp : page = p
    · subst hpp
      obtain ⟨ε, he⟩ := herr
      simp only [loadPages, he, hg]
      rfl
    · have hlt : page < p := lt_of_le_of_ne hpage hpp
      have hgf : g page = f page := hagree page hlt
      cases hf : f page with
      | error ε => simp only [loadPages, hgf, hf]
      | ok resp =>
        simp only [loadPages, hgf, hf]
        by_cases hempty : resp.items.length = 0
        · rw [if_pos hempty, if_pos hempty]
        · rw [if_neg hempty, if_neg hempty]
          by_cases hlast : (if resp.total_pages = 0 then 1 else resp.total_pages) ≤ page
          · rw [if_pos hlast, if_pos hlast]
          · rw [if_neg hlast, if_neg hlast]
            exact ih (page + 1) _ (by omega)

/-- C6: a fetch error at any page behaves exactly like a clean
end-of-data at that page: the loader stops early, every lead ingested
from the earlier pages is retained in the `leads` map, the partial
`loaded`/`orphaned` counts are returned, and the error never escapes
the loop's `catch` (the loader is a total function of the feed). -/
theorem C6_error_stops_early (f g : Feed) (p tp : Nat) (fuel : Nat)
    (hp : 1 ≤ p) (herr : ∃ ε, f p = Except.error ε)
    (hg : g p = Except.ok ⟨[], tp⟩)
    (hagree : ∀ q, q < p → g q = f q) :
    loadAllLeads f fuel = loadAllLeads g fuel :=
  loadPages_error_eq f g p tp herr hg hagree fuel 1 _ hp

def c6item : ApiLead := ⟨"L6", "Prospect", "c6@c.us", "", ""⟩

/-- A feed whose page 2 fetch fails… -/
def c6f : Feed := fun q =>
  if q = 2 then Except.error () else Except.ok ⟨List.replicate 2 c6item, 9⟩

/-- …and the same feed with a clean empty page 2 instead. -/
def c6g : Feed := fun q =>
  if q = 2 then Except.ok ⟨[], 1⟩ else Except.ok ⟨List.replicate 2 c6item, 9⟩

theorem C6_error_stops_early_witness :
    loadAllLeads c6f 10 = loadAllLeads c6g 10 ∧
      (loadAllLeads c6f 10).loaded = 2 ∧
      (loadAllLeads c6f 10).leads "c6@c.us" = some (mkLeadRecord c6item) ∧
      (loadAllLeads c6f 10).pagesFetched = [(1, LEAD_PAGE_SIZE), (2, LEAD_PAGE_SIZE)] := by
  refine ⟨C6_error_stops_early c6f c6g 2 1 10 (by decide) ⟨(), rfl⟩ rfl ?_, ?_, ?_, ?_⟩
  · intro q hq
    have hq2 : q ≠ 2 := by omega
    simp [c6f, c6g, hq2]
  · decide
  · decide
  · decide

/-! ### Content-script stage buckets (`buildChatStageBuckets`) -/

/-- A WPP chat as the content script reads it (`id.user`,
`id._serialized`, group flag, timestamp; `_isDummy` marks synthesized
placeholder entries). -/
structure WChatId where
  user : String
  server : String
  serialized : String
deriving DecidableEq

structure WChat where
  id : WChatId
  name : String
  isGroup : Bool
  unreadCount : Nat
  archive : Bool
  timestamp : Int
  isDummy : Bool
deriving DecidableEq

/-- One `chatsByStage` bucket entry: `{ chat, lead, phone }`. -/
structure StageEntry where
  chat : WChat
  lead : LeadData
  phone : String
deriving DecidableEq

lemma mapGet_set_map {α : Type} (m : List (String × α)) (k : String) (v : α) :
    mapGet (m.map (fun e => if e.1 == k then (k, v) else e)) k
      = if m.any (fun e => e.1 == k) then some v else none := by
  induction m with
  | nil => simp [mapGet]
  | cons e rest ih =>
    rw [List.map_cons, List.any_cons]
    by_cases he : (e.1 == k) = true
    · rw [if_pos he]
      simp [mapGet, List.find?_cons, he]
    · have he2 : (e.1 == k) = false := by simpa using he
      rw [if_neg he]
      simp only [he2, Bool.false_or]
      simp only [mapGet, List.find?_cons, he2] at ih ⊢
      exact ih

lemma mapGet_set_map_ne {α : Type} (m : List (String × α)) (k k2 : String) (v : α)
    (h : k2 ≠ k) :
    mapGet (m.map (fun e => if e.1 == k then (k, v) else e)) k2 = mapGet m k2 := by
  induction m with
  | nil => rfl
  | cons e rest ih =>
    rw [List.map_cons]
    by_cases he : (e.1 == k) = true
    · rw [if_pos he]
      have he1 : e.1 = k := by simpa using he
      have h1 : (k == k2) = false := by
        rw [beq_eq_false_iff_ne]
        exact fun h2 => h h2.symm
      simp only [mapGet, List.find?_cons] at ih ⊢
      simp only [h1, he1]
      exact ih
    · rw [if_neg he]
      simp only [mapGet, List.find?_cons] at ih ⊢
      by_cases hk2 : (e.1 == k2) = true
      · simp [hk2]
      · have hk2f : (e.1 == k2) = false := by simpa using hk2
        simp only [hk2f]
        exact ih

lemma mapGet_mapSet_self {α : Type} (m : List (String × α)) (k : String) (v : α) :
    mapGet (mapSet m k v) k = some v := by
  unfold mapSet
  by_cases hany : m.any (fun e => e.1 == k) = true
  · rw [if_pos hany, mapGet_set_map, if_pos hany]
  · rw [if_neg hany]
    have hnone : m.find? (fun e => e.1 == k) = none := by
      rw [List.find?_eq_none]
      intro x hx hpx
      exact hany (List.any_eq_true.mpr ⟨x, hx, hpx⟩)
    unfold mapGet
    rw [List.find?_append, hnone]
    simp [List.find?_cons]

lemma mapGet_mapSet_ne {α : Type} (m : List (String × α)) (k k2 : String) (v : α)
    (h : k2 ≠ k) : mapGet (mapSet m k v) k2 = mapGet m k2 := by
  unfold mapSet
  by_cases hany : m.any (fun e => e.1 == k) = true
  · rw [if_pos hany]
    exact mapGet_set_map_ne m k k2 v h
  · rw [if_neg hany]
    have h1 : (k == k2) = false := by
      rw [beq_eq_false_iff_ne]
      exact fun h2 => h h2.symm
    unfold mapGet
    rw [List.find?_append]
    simp [List.find?_cons, h1]

lemma mapGet_map_values {α β : Type} (f : α → β) (m : List (String × α)) (k : String) :
    mapGet (m.map (fun e => (e.1, f e.2))) k = (mapGet m k).map f := by
  induction m with
  | nil => rfl
  | cons e rest ih =>
    rw [List.map_cons]
    simp only [mapGet, List.find?_cons] at ih ⊢
    by_cases he : (e.1 == k) = true
    · simp [he]
    · have he2 : (e.1 == k) = false := by simpa using he
      simp only [he2]
      exact ih

/-- Step 3 of `buildChatStageBuckets`, one chat: skip groups and chats
whose normalized phone is empty; otherwise join against the phone
index and, when a lead resolves, append a `{chat, lead, phone}` entry
to that lead's stage bucket (creating the bucket for custom stages). -/
def matchChat (m : List (String × LeadData)) (cbs : List (String × List StageEntry))
    (chat : WChat) : List (String × List StageEntry) :=
  if chat.isGroup then cbs
  else
    if normalizePhone chat.id.user = "" then cbs
    else
      match getStageForPhone m (normalizePhone chat.id.user) with
      | none => cbs
      | some leadData =>
        mapSet cbs leadData.stage
          ((mapGet cbs leadData.stage).getD []
            ++ [⟨chat, leadData, normalizePhone chat.id.user⟩])

/-- The synthesized placeholder chat of step 4: a non-live stand-in
carrying only the join phone (as its id) and a display name. -/
def dummyChat (phone : String) (leadData : LeadData) : WChat :=
  { id := { user := phone, server := "c.us", serialized := phone ++ "@c.us" }
    name := if leadData.name = "" then "+" ++ phone else leadData.name
    isGroup := false
    unreadCount := 0
    archive := false
    timestamp := 0
    isDummy := true }

/-- Step 4, one `phoneStageMap` entry: if no entry with this exact
phone is already in the lead's stage bucket, append a placeholder
entry for it (creating the bucket if needed). -/
def addDummy (cbs : List (String × List StageEntry)) (pl : String × LeadData) :
    List (String × List StageEntry) :=
  if ((mapGet cbs pl.2.stage).getD []).any (fun entry => entry.phone == pl.1) then cbs
  else
    mapSet cbs pl.2.stage
      ((mapGet cbs pl.2.stage).getD [] ++ [⟨dummyChat pl.1 pl.2, pl.2, pl.1⟩])

/-- Step 5: per-bucket stable sort by timestamp, newest first. -/
def sortEntries (l : List StageEntry) : List StageEntry :=
  l.insertionSort (fun a b => b.chat.timestamp ≤ a.chat.timestamp)

/-- `buildChatStageBuckets()` (content script): initialize one empty
bucket per known stage (keyed by stage *name*), bucket every matched
non-group chat (step 3), synthesize placeholder entries for leads
without one (step 4), and sort each bucket (step 5; the count update
of step 6 only reads bucket lengths). -/
def buildChatStageBuckets (stagesList : List String) (m : List (String × LeadData))
    (cachedChatList : List WChat) : List (String × List StageEntry) :=
  let cbs0 := stagesList.foldl (fun cbs st => mapSet cbs st []) []
  let cbs1 := cachedChatList.foldl (matchChat m) cbs0
  let cbs2 := m.foldl addDummy cbs1
  cbs2.map (fun e => (e.1, sortEntries e.2))

/-- Every entry a step-3 bucket holds carries the normalized phone of
some non-group cached chat. -/
def ChatPhoneEntry (chats : List WChat) (entry : StageEntry) : Prop :=
  ∃ chat ∈ chats, chat.isGroup = false ∧ entry.phone = normalizePhone chat.id.user

/-- No bucket of `cbs` holds an entry with phone `p`. -/
def NoPhone (p : String) (cbs : List (String × List StageEntry)) : Prop :=
  ∀ k b, mapGet cbs k = some b → ∀ entry ∈ b, entry.phone ≠ p

lemma mapGet_foldl_setEmpty (stagesList : List String) :
    ∀ (cbs : List (String × List StageEntry)),
      (∀ k b, mapGet cbs k = some b → b = []) →
      ∀ k b, mapGet (stagesList.foldl (fun cbs st => mapSet cbs st []) cbs) k = some b →
        b = [] := by
  induction stagesList with
  | nil =>
    intro cbs h
    exact h
  | cons st rest ih =>
    intro cbs h
    rw [List.foldl_cons]
    apply ih
    intro k b hkb
    by_cases hk : k = st
    · subst hk
      rw [mapGet_mapSet_self] at hkb
      injection hkb with hb
      exact hb.symm
    · rw [mapGet_mapSet_ne cbs st k [] hk] at hkb
      exact h k b hkb

lemma matchChat_sound (m : List (String × LeadData)) (chats : List WChat)
    (cbs : List (String × List StageEntry)) (c : WChat) (hc : c ∈ chats)
    (h : ∀ k b, mapGet cbs k = some b → ∀ entry ∈ b, ChatPhoneEntry chats entry) :
    ∀ k b, mapGet (matchChat m cbs c) k = some b →
      ∀ entry ∈ b, ChatPhoneEntry chats entry := by
  unfold matchChat
  by_cases hg : c.isGroup = true
  · rw [if_pos hg]
    exact h
  · rw [if_neg hg]
    by_cases hp : normalizePhone c.id.user = ""
    · rw [if_pos hp]
      exact h
    · rw [if_neg hp]
      cases hs : getStageForPhone m (normalizePhone c.id.user) with
      | none => exact h
      | some L =>
        intro k b hkb entry hentry
        by_cases hk : k = L.stage
        · subst hk
          rw [mapGet_mapSet_self] at hkb
          injection hkb with hb
          subst hb
          rcases List.mem_append.mp hentry with h1 | h1
          · cases hget : mapGet cbs L.stage with
            | none =>
              rw [hget] at h1
              exact absurd h1 (List.not_mem_nil entry)
            | some b0 =>
              rw [hget] at h1
              exact h L.stage b0 hget entry h1
          · have he : entry = ⟨c, L, normalizePhone c.id.user⟩ := List.mem_singleton.mp h1
            subst he
            exact ⟨c, hc, by simpa using hg, rfl⟩
        · rw [mapGet_mapSet_ne cbs L.stage k _ hk] at hkb
          exact h k b hkb entry hentry

lemma foldl_matchChat_sound (m : List (String × LeadData)) (chats : List WChat) :
    ∀ (l : List WChat), (∀ c ∈ l, c ∈ chats) →
    ∀ cbs, (∀ k b, mapGet cbs k = some b → ∀ entry ∈ b, ChatPhoneEntry chats entry) →
    ∀ k b, mapGet (l.foldl (matchChat m) cbs) k = some b →
      ∀ entry ∈ b, ChatPhoneEntry chats entry := by
  intro l
  induction l with
  | nil =>
    intro _ cbs h
    exact h
  | cons c rest ih =>
    intro hsub cbs h
    rw [List.foldl_cons]
    exact ih (fun d hd => hsub d (List.mem_cons_of_mem c hd)) (matchChat m cbs c)
      (matchChat_sound m chats cbs c (hsub c (List.mem_cons_self c rest)) h)

lemma addDummy_mono (cbs : List (String × List StageEntry)) (pl : String × LeadData)
    (k : String) (b : List StageEntry) (entry : StageEntry)
    (hkb : mapGet cbs k = some b) (hentry : entry ∈ b) :
    ∃ b2, mapGet (addDummy cbs pl) k = some b2 ∧ entry ∈ b2 := by
  unfold addDummy
  by_cases hmatched : ((mapGet cbs pl.2.stage).getD []).any
      (fun e2 => e2.phone == pl.1) = true
  · rw [if_pos hmatched]
    exact ⟨b, hkb, hentry⟩
  · rw [if_neg hmatched]
    by_cases hk : k = pl.2.stage
    · subst hk
      refine ⟨_, mapGet_mapSet_self _ _ _, ?_⟩
      rw [hkb]
      exact List.mem_append_left _ hentry
    · rw [mapGet_mapSet_ne _ _ _ _ hk]
      exact ⟨b, hkb, hentry⟩

lemma foldl_addDummy_mono (l : List (String × LeadData)) :
    ∀ cbs k b entry, mapGet cbs k = some b → entry ∈ b →
      ∃ b2, mapGet (l.foldl addDummy cbs) k = some b2 ∧ entry ∈ b2 := by
  induction l with
  | nil =>
    intro cbs k b entry h1 h2
    exact ⟨b, h1, h2⟩
  | cons pl rest ih =>
    intro cbs k b entry h1 h2
    rw [List.foldl_cons]
    obtain ⟨b2, hb2, he2⟩ := addDummy_mono cbs pl k b entry h1 h2
    exact ih _ k b2 entry hb2 he2

lemma addDummy_noPhone (cbs : List (String × List StageEntry)) (pl : String × LeadData)
    (p : String) (h : NoPhone p cbs) (hne : pl.1 ≠ p) : NoPhone p (addDummy cbs pl) := by
  unfold addDummy
  by_cases hmatched : ((mapGet cbs pl.2.stage).getD []).any
      (fun e2 => e2.phone == pl.1) = true
  · rw [if_pos hmatched]
    exact h
  · rw [if_neg hmatched]
    intro k b hkb entry hentry
    by_cases hk : k = pl.2.stage
    · subst hk
      rw [mapGet_mapSet_self] at hkb
      injection hkb with hb
      subst hb
      rcases List.mem_append.mp hentry with h1 | h1
      · cases hget : mapGet cbs pl.2.stage with
        | none =>
          rw [hget] at h1
          exact absurd h1 (List.not_mem_nil entry)
        | some b0 =>
          rw [hget] at h1
          exact h _ b0 hget entry h1
      · have he : entry = ⟨dummyChat pl.1 pl.2, pl.2, pl.1⟩ := List.mem_singleton.mp h1
        subst he
        exact hne
    · rw [mapGet_mapSet_ne _ _ _ _ hk] at hkb
      exact h k b hkb entry hentry

lemma foldl_addDummy_noPhone (l : List (String × LeadData)) (p : String)
    (hl : ∀ pl ∈ l, pl.1 ≠ p) :
    ∀ cbs, NoPhone p cbs → NoPhone p (l.foldl addDummy cbs) := by
  induction l with
  | nil =>
    intro cbs h
    exact h
  | cons pl rest ih =>
    intro cbs h
    rw [List.foldl_cons]
    exact ih (fun d hd => hl d (List.mem_cons_of_mem pl hd)) _
      (addDummy_noPhone cbs pl p h (hl pl (List.mem_cons_self pl rest)))

/-- When no entry with the lead's phone is in its stage bucket yet,
step 4 really appends the placeholder. -/
lemma addDummy_hit (cbs : List (String × List StageEntry)) (pl : String × LeadData)
    (h : NoPhone pl.1 cbs) :
    ∃ b2, mapGet (addDummy cbs pl) pl.2.stage = some b2 ∧
      (⟨dummyChat pl.1 pl.2, pl.2, pl.1⟩ : StageEntry) ∈ b2 := by
  unfold addDummy
  have hmatched : ((mapGet cbs pl.2.stage).getD []).any
      (fun e2 => e2.phone == pl.1) = false := by
    rw [List.any_eq_false]
    intro x hx
    cases hget : mapGet cbs pl.2.stage with
    | none =>
      rw [hget] at hx
      exact absurd hx (List.not_mem_nil x)
    | some b0 =>
      rw [hget] at hx
      have := h pl.2.stage b0 hget x hx
      simpa using this
  rw [if_neg (by rw [hmatched]; exact Bool.false_ne_true)]
  exact ⟨_, mapGet_mapSet_self _ _ _,
    List.mem_append_right _ (List.mem_singleton.mpr rfl)⟩

lemma buildChatStageBuckets_get (stagesList : List String)
    (m : List (String × LeadData)) (chats : List WChat) (k : String) :
    mapGet (buildChatStageBuckets stagesList m chats) k
      = (mapGet (m.foldl addDummy
          (chats.foldl (matchChat m)
            (stagesList.foldl (fun cbs st => mapSet cbs st []) []))) k).map sortEntries := by
  unfold buildChatStageBuckets
  exact mapGet_map_values sortEntries _ k

/-- C7: after a full content-script rebuild, every lead whose phone
matches no live non-group conversation is represented in its stage's
bucket by the synthesized placeholder entry (the dummy chat exposing
the join phone as its id and a display name). -/
theorem C7_orphan_placeholders (stagesList : List String)
    (m : List (String × LeadData)) (chats : List WChat) (p : String) (L : LeadData)
    (hnd : (m.map Prod.fst).Nodup) (hmem : (p, L) ∈ m)
    (hnochat : ∀ c ∈ chats, c.isGroup = false → normalizePhone c.id.user ≠ p) :
    ∃ b, mapGet (buildChatStageBuckets stagesList m chats) L.stage = some b ∧
      (⟨dummyChat p L, L, p⟩ : StageEntry) ∈ b := by
  obtain ⟨m1, m2, hm⟩ := List.append_of_mem hmem
  subst hm
  have hm1 : ∀ pl ∈ m1, pl.1 ≠ p := by
    intro pl hpl he
    rw [List.map_append, List.map_cons] at hnd
    have hdisj := (List.nodup_append.mp hnd).2.2
    have hp1 : p ∈ m1.map Prod.fst := he ▸ List.mem_map_of_mem Prod.fst hpl
    exact hdisj hp1 (List.mem_cons_self _ _)
  have hempty := mapGet_foldl_setEmpty stagesList []
    (fun k b h => Option.noConfusion h)
  have hsound := foldl_matchChat_sound (m1 ++ (p, L) :: m2) chats chats
    (fun c hc => hc)
    (stagesList.foldl (fun cbs st => mapSet cbs st []) [])
    (fun k b hkb entry he =>
      absurd (hempty k b hkb ▸ he) (List.not_mem_nil entry))
  have hNP1 : NoPhone p (chats.foldl (matchChat (m1 ++ (p, L) :: m2))
      (stagesList.foldl (fun cbs st => mapSet cbs st []) [])) := by
    intro k b hkb entry he hep
    obtain ⟨chat, hchat, hng, hpe⟩ := hsound k b hkb entry he
    exact hnochat chat hchat hng (hpe.symm.trans hep)
  have hNP2 := foldl_addDummy_noPhone m1 p hm1 _ hNP1
  obtain ⟨b2, hb2, he2⟩ := addDummy_hit _ (p, L) hNP2
  obtain ⟨b3, hb3, he3⟩ := foldl_addDummy_mono m2 _ L.stage b2 _ hb2 he2
  rw [buildChatStageBuckets_get, List.foldl_append, List.foldl_cons, hb3]
  exact ⟨sortEntries b3, rfl,
    ((List.perm_insertionSort _ b3).mem_iff).mpr he3⟩

def c7lead : LeadData := ⟨"Prospect", "LID7", "Maya", none⟩

def c7map : List (String × LeadData) := [("919876500001", c7lead)]

def c7chat : WChat :=
  ⟨⟨"15550001111", "c.us", "15550001111@c.us"⟩, "Chat", false, 0, false, 3, false⟩

theorem C7_orphan_placeholders_witness :
    ∃ b, mapGet (buildChatStageBuckets ["Prospect"] c7map [c7chat]) "Prospect" = some b ∧
      (⟨dummyChat "919876500001" c7lead, c7lead, "919876500001"⟩ : StageEntry) ∈ b :=
  C7_orphan_placeholders ["Prospect"] c7map [c7chat] "919876500001" c7lead
    (by show (c7map.map Prod.fst).Nodup; decide) (by decide) (by decide)

/-! ### Chat-list takeover state machine (`onStageTabClick`,
`rebuildChatList`, `restoreNativeChatList`) -/

/-- The DOM facts the takeover manipulates: the id of WhatsApp's
original pane element, whether it is visible, and whether our cloned
pane is in the document (the clone always carries id `pane-side`,
being cloned before the original is renamed). -/
structure PaneDom where
  originalId : String
  originalVisible : Bool
  cloneInDom : Bool
deriving DecidableEq

/-- The module state touched by the filter/takeover path:
`activeFilter`, `isLoggedIn`, `isOcrmControllingChatList`, whether
`waOriginalPaneSide` is saved, whether the `scroll.ocrm` handlers are
bound, and the pane DOM. -/
structure UIState where
  activeFilter : String
  isLoggedIn : Bool
  isOcrmControllingChatList : Bool
  waOriginalSaved : Bool
  scrollBound : Bool
  dom : PaneDom
deriving DecidableEq

/-- `restoreNativeChatList()`: unbind the `scroll.ocrm` handlers,
remove our cloned pane (found under id `pane-side` whenever the
original is saved under its backup id), rename the original back to
`pane-side` and unhide it, clear `waOriginalPaneSide`, and drop
control. -/
def restoreNativeChatList (s : UIState) : UIState :=
  { s with
    scrollBound := false
    isOcrmControllingChatList := false
    waOriginalSaved := false
    dom :=
      { originalId := if s.waOriginalSaved then "pane-side" else s.dom.originalId
        originalVisible := if s.waOriginalSaved then true else s.dom.originalVisible
        cloneInDom := if s.waOriginalSaved then false else s.dom.cloneInDom } }

/-- Step 1 of `rebuildChatList` when not yet controlling: deep-clone
the pane (the clone keeps id `pane-side`), rename the original to
`pane-side-wa-backup` and hide it, save it, insert the clone, take
control, and bind the virtual-scroll handlers. -/
def takeoverChatList (s : UIState) : UIState :=
  { s with
    isOcrmControllingChatList := true
    waOriginalSaved := true
    scrollBound := true
    dom := ⟨"pane-side-wa-backup", false, true⟩ }

/-- `rebuildChatList(filterName)`, state part: `all-chats` restores
native control when we hold it; any other filter takes over when we do
not (the row rendering of steps 2+ does not touch these fields). -/
def rebuildChatList (s : UIState) (filterName : String) : UIState :=
  if filterName = "all-chats" then
    if s.isOcrmControllingChatList then restoreNativeChatList s else s
  else
    if s.isOcrmControllingChatList then s else takeoverChatList s

/-- `onStageTabClick`, state part: ignore clicks without a tab name or
while logged out; clicking the active tab toggles back to
`all-chats`, any other tab becomes the active filter; then
`rebuildChatList(activeFilter)` runs. -/
def onStageTabClick (s : UIState) (tabName : String) : UIState :=
  if tabName = "" then s
  else if s.isLoggedIn then
    rebuildChatList
      { s with activeFilter := if s.activeFilter = tabName then "all-chats" else tabName }
      (if s.activeFilter = tabName then "all-chats" else tabName)
  else s

/-- C8: activating a stage filter and clicking the same stage tab
again is a round trip.  Starting logged-in and under native control,
after the two clicks the active filter is back to `all-chats`, control
is returned (`isOcrmControllingChatList` is false), the cloned pane is
out of the DOM, the original pane is visible again under id
`pane-side`, the saved original reference is cleared, and the scroll
handlers are unbound — regardless of the initial pane DOM state. -/
theorem C8_toggle_roundtrip (s : UIState) (tab : String)
    (hlog : s.isLoggedIn = true) (htab : tab ≠ "") (hne : s.activeFilter ≠ tab)
    (hall : tab ≠ "all-chats") (hctl : s.isOcrmControllingChatList = false) :
    onStageTabClick (onStageTabClick s tab) tab
      = { s with
          activeFilter := "all-chats"
          isOcrmControllingChatList := false
          waOriginalSaved := false
          scrollBound := false
          dom := ⟨"pane-side", true, false⟩ } := by
  simp [onStageTabClick, rebuildChatList, takeoverChatList, restoreNativeChatList,
    htab, hlog, hne, hall, hctl]

def c8s : UIState :=
  ⟨"all-chats", true, false, false, false, ⟨"pane-side", true, false⟩⟩

theorem C8_toggle_roundtrip_witness :
    onStageTabClick (onStageTabClick c8s "prospect") "prospect"
      = { c8s with
          activeFilter := "all-chats"
          isOcrmControllingChatList := false
          waOriginalSaved := false
          scrollBound := false
          dom := ⟨"pane-side", true, false⟩ } :=
  C8_toggle_roundtrip c8s "prospect" (by decide) (by decide) (by decide) (by decide)
    (by decide)

/-! ### Virtualized chat-list rendering (`renderVisibleRows`) -/

/-- `VIEWPORT_BUFFER`: 25% of the viewport pre-rendered above and
below it. -/
def VIEWPORT_BUFFER : ℚ := 1/4

/-- `getRowHeight()`: 76px on WhatsApp Business, 72px otherwise. -/
def getRowHeight (isBusinessApp : Bool) : ℕ := if isBusinessApp then 76 else 72

/-- `startIdx = Math.max(0, Math.floor((scrollTop - bufferPx) / rowH))`. -/
def startIdx (scrollTop clientHeight : ℚ) (rowH : ℕ) : ℤ :=
  max 0 ⌊(scrollTop - clientHeight * VIEWPORT_BUFFER) / (rowH : ℚ)⌋

/-- `endIdx = Math.min(N - 1, Math.ceil((scrollTop + clientHeight + bufferPx) / rowH))`. -/
def endIdx (n : ℕ) (scrollTop clientHeight : ℚ) (rowH : ℕ) : ℤ :=
  min ((n : ℤ) - 1)
    ⌈(scrollTop + clientHeight + clientHeight * VIEWPORT_BUFFER) / (rowH : ℚ)⌉

/-- The `shouldRender` id set: the filtered ids at indices
`startIdx … endIdx`. -/
def shouldIds (ids : List String) (lo hi : ℤ) : Finset String :=
  (Finset.Icc lo hi).image (fun i => ids.getD i.toNat "")

/-- `renderVisibleRows`, rendered-row-set part: no-op on an empty id
list; otherwise recycle every mounted row whose id is outside
`shouldRender` and mount the missing in-range rows that have a live
model.  The result is the new key set of `renderedRows`. -/
def renderVisibleRows (ids : List String) (map : String → Option Chat)
    (prior : Finset String) (scrollTop clientHeight : ℚ) (rowH : ℕ) : Finset String :=
  if ids.length = 0 then prior
  else
    (prior ∩ shouldIds ids (startIdx scrollTop clientHeight rowH)
        (endIdx ids.length scrollTop clientHeight rowH)) ∪
      (shouldIds ids (startIdx scrollTop clientHeight rowH)
          (endIdx ids.length scrollTop clientHeight rowH)).filter
        (fun cid => (map cid).isSome)

/-- C3: after `renderVisibleRows` runs, the number of mounted rows is
bounded by `⌈clientHeight * (1 + 2 * 0.25) / rowHeight⌉ + 2`,
independently of the number of filtered conversations and of the
scroll position (for the empty-list no-op the previously empty row set
is required, matching a freshly rebuilt list). -/
theorem C3_virtualization_bound (ids : List String) (map : String → Option Chat)
    (prior : Finset String) (scrollTop clientHeight : ℚ) (isBusinessApp : Bool)
    (hh : 0 ≤ clientHeight)
    (hprior : ids.length ≠ 0 ∨ prior = ∅) :
    ((renderVisibleRows ids map prior scrollTop clientHeight
        (getRowHeight isBusinessApp)).card : ℤ)
      ≤ ⌈clientHeight * (1 + 2 * VIEWPORT_BUFFER) / (getRowHeight isBusinessApp : ℚ)⌉
          + 2 := by
  have hrpos : 0 < getRowHeight isBusinessApp := by
    cases isBusinessApp <;> decide
  generalize hgr : getRowHeight isBusinessApp = r
  rw [hgr] at hrpos
  have hrq : (0 : ℚ) < (r : ℚ) := by exact_mod_cast hrpos
  have hD : 0 ≤ ⌈clientHeight * (1 + 2 * VIEWPORT_BUFFER) / (r : ℚ)⌉ := by
    apply Int.ceil_nonneg
    apply div_nonneg
    · apply mul_nonneg hh
      norm_num [VIEWPORT_BUFFER]
    · exact le_of_lt hrq
  by_cases hlen : ids.length = 0
  · have hpe : prior = ∅ := by
      rcases hprior with h | h
      · exact absurd hlen h
      · exact h
    rw [renderVisibleRows, if_pos hlen, hpe]
    simp only [Finset.card_empty, Nat.cast_zero]
    omega
  · have hsub : renderVisibleRows ids map prior scrollTop clientHeight r ⊆
        shouldIds ids (startIdx scrollTop clientHeight r)
          (endIdx ids.length scrollTop clientHeight r) := by
      rw [renderVisibleRows, if_neg hlen]
      exact Finset.union_subset Finset.inter_subset_right (Finset.filter_subset _ _)
    have h1 : (renderVisibleRows ids map prior scrollTop clientHeight r).card
        ≤ (Finset.Icc (startIdx scrollTop clientHeight r)
            (endIdx ids.length scrollTop clientHeight r)).card :=
      le_trans (Finset.card_le_card hsub) Finset.card_image_le
    rw [Int.card_Icc] at h1
    have hcast : ((renderVisibleRows ids map prior scrollTop clientHeight r).card : ℤ)
        ≤ ((endIdx ids.length scrollTop clientHeight r + 1
            - startIdx scrollTop clientHeight r).toNat : ℤ) := by
      exact_mod_cast h1
    have hlo : ⌊(scrollTop - clientHeight * VIEWPORT_BUFFER) / (r : ℚ)⌋
        ≤ startIdx scrollTop clientHeight r := le_max_right _ _
    have hhi : endIdx ids.length scrollTop clientHeight r
        ≤ ⌈(scrollTop + clientHeight + clientHeight * VIEWPORT_BUFFER) / (r : ℚ)⌉ :=
      min_le_right _ _
    have hkey : ⌈(scrollTop + clientHeight + clientHeight * VIEWPORT_BUFFER) / (r : ℚ)⌉
        ≤ ⌊(scrollTop - clientHeight * VIEWPORT_BUFFER) / (r : ℚ)⌋
          + ⌈clientHeight * (1 + 2 * VIEWPORT_BUFFER) / (r : ℚ)⌉ + 1 := by
      have hsplit : (scrollTop + clientHeight + clientHeight * VIEWPORT_BUFFER) / (r : ℚ)
          = (scrollTop - clientHeight * VIEWPORT_BUFFER) / (r : ℚ)
            + clientHeight * (1 + 2 * VIEWPORT_BUFFER) / (r : ℚ) := by
        rw [div_add_div_same]
        congr 1
        ring
      rw [hsplit]
      have h1c := Int.ceil_add_le
        ((scrollTop - clientHeight * VIEWPORT_BUFFER) / (r : ℚ))
        (clientHeight * (1 + 2 * VIEWPORT_BUFFER) / (r : ℚ))
      have h2c := Int.ceil_le_floor_add_one
        ((scrollTop - clientHeight * VIEWPORT_BUFFER) / (r : ℚ))
      omega
    omega

theorem C3_virtualization_bound_witness :
    ((renderVisibleRows ["a3@c.us"] (fun _ => none) ∅ 0 0 (getRowHeight false)).card : ℤ)
      ≤ ⌈(0 : ℚ) * (1 + 2 * VIEWPORT_BUFFER) / (getRowHeight false : ℚ)⌉ + 2 :=
  C3_virtualization_bound ["a3@c.us"] (fun _ => none) ∅ 0 0 false (le_refl 0)
    (Or.inl (by decide))

end OceanCRM
